import Mathlib

/-!
# tracetool: the trace server's ingestion path

A shallow embedding of `src/server/server.cpp`: the wire deserializer
`deserializeTraceEntry`, the handler `Server::handleIncomingData` and the
persistence routine `Server::storeEntry`, together with the part of SQLite
and Qt that these functions rely on.  The filter elements of the
configuration file (`src/gui/configuration.cpp`) are embedded as well.

`storeEntry` builds every SQL statement by splicing field values into a
statement template (`QString::arg`).  The embedding keeps the spliced text
as text: what the SQL engine makes of a statement is decided by reading the
characters that follow the opening quote of the template, exactly as a SQL
tokenizer does.  The SQL engine is SQLite with upsert clauses (3.24 or
later); keys are 64-bit signed row ids, so the largest key is 2^63 - 1, and a
decimal number from 2^63 on is not an integer to SQL.
-/

namespace TraceTool

/-! ## Text -/

/-- Text of a `QString`, as the sequence of its characters. -/
abbrev QString := List Char

/-- The character U+0027, which delimits SQL string literals. -/
def sqlQuote : Char := Char.ofNat 39

/-- The character U+0000; SQLite reads a statement up to the first one. -/
def nulChar : Char := Char.ofNat 0

/-- One of the digits `0` to `9`. -/
def isDigitChar (c : Char) : Bool :=
  48 ≤ c.toNat && c.toNat ≤ 57

/-- Read decimal digits onto the accumulator `acc`; `none` at the first
character that is not a digit. -/
def parseDigits : Nat → QString → Option Nat
  | acc, [] => some acc
  | acc, c :: cs =>
    if isDigitChar c then parseDigits (10 * acc + (c.toNat - 48)) cs else none

/-- Take `p` off the front of `s`; `none` when `s` does not begin with `p`. -/
def stripFront : QString → QString → Option QString
  | [], s => some s
  | _ :: _, [] => none
  | p :: ps, c :: cs => if p = c then stripFront ps cs else none

/-! ## Data model -/

/-- The in-flight value produced by the deserializer (fields of `TraceEntry`
as assigned in `deserializeTraceEntry`).  Numeric fields are unsigned machine
integers in the source; they are naturals here.  `QString::arg` renders them
in decimal when they are spliced into a statement, and SQL reads the decimal
text back as the same integer, so the statements below take them as
numbers. -/
structure TraceEntry where
  pid : Nat
  tid : Nat
  timestamp : Nat
  verbosity : Nat
  type : Nat
  path : QString
  lineno : Nat
  function : QString
  message : QString
deriving DecidableEq

/-- A table row: the `id INTEGER PRIMARY KEY AUTOINCREMENT` column and the
remaining columns. -/
structure Row (γ : Type) where
  id : Nat
  cols : γ
deriving DecidableEq

/-- A table with an AUTOINCREMENT key: its rows in key order, which is the
order of insertion as long as the keys are handed out by AUTOINCREMENT, and
the largest key ever handed out (the table's entry in `sqlite_sequence`). -/
structure Table (γ : Type) where
  rows : List (Row γ)
  seq : Nat
deriving DecidableEq

/-- Columns of `trace_point` other than `id`. -/
structure TracePoint where
  verbosity : Nat
  type : Nat
  path_id : Nat
  line : Nat
  function_id : Nat
deriving DecidableEq

/-- Columns of `trace_entry` other than `id`. -/
structure EntryCols where
  pid : Nat
  tid : Nat
  timestamp : Nat
  tracepoint_id : Nat
  message : QString
deriving DecidableEq

/-- A row of `variable_value`. -/
structure VariableValue where
  tracepoint_id : Nat
  name : QString
  value : QString
deriving DecidableEq

/-- A row of `backtrace`. -/
structure BacktraceLine where
  tracepoint_id : Nat
  line : Nat
  text : QString
deriving DecidableEq

/-- The six tables as they stood when the open transaction began: what a
rollback brings back. -/
structure Snapshot where
  path_name : Table QString
  function_name : Table QString
  trace_point : Table TracePoint
  trace_entry : Table EntryCols
  variable_value : List VariableValue
  backtrace : List BacktraceLine
deriving DecidableEq

/-- The database behind `m_db`: the six tables of `schemaStatements`, the
connection's `last_insert_rowid()`, and the open transaction if there is one
(`none` in autocommit mode). -/
structure Database where
  path_name : Table QString
  function_name : Table QString
  trace_point : Table TracePoint
  trace_entry : Table EntryCols
  variable_value : List VariableValue
  backtrace : List BacktraceLine
  lastInsertRowid : Nat
  transaction : Option Snapshot
deriving DecidableEq

/-- The store right after the schema has been created. -/
def Database.empty : Database :=
  { path_name := ⟨[], 0⟩, function_name := ⟨[], 0⟩, trace_point := ⟨[], 0⟩,
    trace_entry := ⟨[], 0⟩, variable_value := [], backtrace := [],
    lastInsertRowid := 0, transaction := none }

/-- The two dimension tables, which `storeEntry` treats alike. -/
inductive NameTable where
  | path_name
  | function_name
deriving DecidableEq

/-- The dimension table selected by `t`. -/
def Database.names (db : Database) : NameTable → Table QString
  | .path_name => db.path_name
  | .function_name => db.function_name

/-! ## AUTOINCREMENT -/

/-- Largest key among the rows (0 for no rows). -/
def maxId {γ : Type} : List (Row γ) → Nat
  | [] => 0
  | r :: rs => max r.id (maxId rs)

/-- The largest key a table can hold, 2^63 - 1. -/
def maxKey : Nat := 9223372036854775807

/-- The largest key the table holds or has ever handed out. -/
def Table.largestKey {γ : Type} (t : Table γ) : Nat :=
  max t.seq (maxId t.rows)

/-- The key AUTOINCREMENT gives the next row: one more than the largest key
the table holds or has ever handed out.  There is none once that key is
`maxKey`: the insert then fails with `SQLITE_FULL`. -/
def Table.nextId {γ : Type} (t : Table γ) : Option Nat :=
  if t.largestKey < maxKey then some (t.largestKey + 1) else none

/-- Has the table a next key, so that one more row can be inserted with the
key `NULL`? -/
def Table.hasRoom {γ : Type} (t : Table γ) : Bool :=
  decide (t.largestKey < maxKey)

/-- Effect of inserting one row with the key `NULL` on the table: the row is
appended under the next key, or there is no next key and nothing is
inserted. -/
def Table.insert {γ : Type} (t : Table γ) (c : γ) : Option (Table γ) :=
  match t.nextId with
  | none => none
  | some k => some { rows := t.rows ++ [⟨k, c⟩], seq := k }

/-- Put a row into a list of rows that is in key order. -/
def insertByKey {γ : Type} (r : Row γ) : List (Row γ) → List (Row γ)
  | [] => [r]
  | a :: as => if r.id < a.id then r :: a :: as else a :: insertByKey r as

/-- Effect of inserting one row with the explicit key `k`, which the table
does not hold, on the table. -/
def Table.insertWithKey {γ : Type} (t : Table γ) (k : Nat) (c : γ) : Table γ :=
  { rows := insertByKey ⟨k, c⟩ t.rows, seq := max t.seq k }

/-- Does the table hold a row with the key `k`? -/
def Table.hasKey {γ : Type} (t : Table γ) (k : Nat) : Bool :=
  t.rows.any (fun r => decide (r.id = k))

/-- A number that SQL reads from its decimal text as an integer: one below
2^63.  Larger numbers are read as floating point, which this embedding does
not interpret. -/
def isSqlInteger (n : Nat) : Bool :=
  decide (n < 9223372036854775808)

/-- Keys of the rows whose columns equal `c`, in table order. -/
def Table.idsOf {γ : Type} [DecidableEq γ] (t : Table γ) (c : γ) : List Nat :=
  (t.rows.filter (fun r => decide (r.cols = c))).map (fun r => r.id)

/-! ## Reading spliced text the way SQL does -/

/-- What a SQL tokenizer finds after an opening quote. -/
inductive Lexed where
  | closed (value rest : QString)
  | unterminated
deriving DecidableEq

/-- Put one more character in front of the literal being read. -/
def Lexed.push (c : Char) : Lexed → Lexed
  | .closed v rest => .closed (c :: v) rest
  | .unterminated => .unterminated

/-- Read a SQL string literal from the text after its opening quote: two
quotes in a row stand for one quote character, a single quote ends the
literal, and the end of the text inside the literal leaves it unterminated. -/
def lexQuoted : QString → Lexed
  | [] => .unterminated
  | [c] => if c = sqlQuote then .closed [] [] else .unterminated
  | c :: d :: ds =>
    if c = sqlQuote then
      if d = sqlQuote then (lexQuoted ds).push sqlQuote else .closed [] (d :: ds)
    else (lexQuoted (d :: ds)).push c

/-- What the SQL engine makes of a template with a spliced argument. -/
inductive SqlArg where
  /-- the statement is the template with this string value -/
  | value (v : QString)
  /-- the statement does not tokenize: preparing it fails -/
  | syntaxError
  /-- some other statement text, which this embedding does not interpret -/
  | other
deriving DecidableEq

/-- Characters that, outside a string literal, start a token which may hold a
quote (quoted identifiers), or end the statement. -/
def opensOtherToken (c : Char) : Bool :=
  c = Char.ofNat 59 || c = Char.ofNat 34 || c = Char.ofNat 91 || c = Char.ofNat 96

/-- Is `c` followed by `d` the start of a SQL comment (two minus signs, or a
slash and a star)? -/
def opensComment (c d : Char) : Bool :=
  (c = Char.ofNat 45 && d = Char.ofNat 45) || (c = Char.ofNat 47 && d = Char.ofNat 42)

/-- Scan the text that follows a closed literal when it is not the rest of the
template.  `inLit` tells whether the scan is inside a string literal.  The
statement cannot be prepared when its text ends inside a literal; any text
that might tokenize is left uninterpreted. -/
def scanTail : Bool → QString → SqlArg
  | true, [] => .syntaxError
  | false, [] => .other
  | true, c :: cs => if c = sqlQuote then scanTail false cs else scanTail true cs
  | false, c :: cs =>
    if c = sqlQuote then scanTail true cs
    else if opensOtherToken c then .other
    else match cs with
      | [] => .other
      | d :: _ => if opensComment c d then .other else scanTail false cs

/-- Reading of a statement `prefix'%1'suffix` after `.arg(arg)`: the text
after the opening quote is `arg`, the template's closing quote and `suffix`,
cut at the first NUL. -/
def readSpliced (arg suffix : QString) : SqlArg :=
  match lexQuoted ((arg ++ sqlQuote :: suffix).takeWhile (fun c => decide (c ≠ nulChar))) with
  | .unterminated => .syntaxError
  | .closed v rest => if rest = suffix then .value v else scanTail false rest

/-! ## Transactions -/

/-- The tables of the store, as a snapshot. -/
def Database.tables (db : Database) : Snapshot :=
  { path_name := db.path_name, function_name := db.function_name,
    trace_point := db.trace_point, trace_entry := db.trace_entry,
    variable_value := db.variable_value, backtrace := db.backtrace }

/-- The statement `BEGIN TRANSACTION;`: it opens a transaction, remembering
the tables, unless one is open already, in which case it fails and changes
nothing. -/
def execBegin (db : Database) : Database :=
  match db.transaction with
  | none => { db with transaction := some db.tables }
  | some _ => db

/-- The statement `COMMIT;`: it ends the open transaction and keeps the
tables; with no transaction open it fails and changes nothing.  `storeEntry`
issues no `ROLLBACK`. -/
def execCommit (db : Database) : Database :=
  { db with transaction := none }

/-- What SQLite does when a statement that inserts one row fails with
`SQLITE_FULL`: the open transaction is rolled back as a whole and ended; in
autocommit mode nothing changes.  `last_insert_rowid()` is not rolled
back. -/
def Database.full (db : Database) : Database :=
  match db.transaction with
  | none => db
  | some s =>
    { path_name := s.path_name, function_name := s.function_name,
      trace_point := s.trace_point, trace_entry := s.trace_entry,
      variable_value := s.variable_value, backtrace := s.backtrace,
      lastInsertRowid := db.lastInsertRowid, transaction := none }

/-! ## The statements of `storeEntry` -/

/-- Template text after the closing quote in `SELECT id FROM t WHERE
name='%1';`. -/
def selectEnd : QString := ";".toList

/-- Template text after the closing quote in `INSERT INTO t VALUES(NULL,
'%1');` and in the insert into `trace_entry`. -/
def valuesEnd : QString := ");".toList

/-- Column 0 of the rows a `QSqlQuery` holds after `exec`: `next()` succeeds
when there is a first row and `value(0)` then reads it.  A statement that
failed leaves no rows. -/
abbrev Cursor := List Nat

/-- The call `query.value( 0 ).toUInt( &ok )` after `query.next()`: the
first row's integer narrowed to `unsigned int`, or 0 when `next()` found no
row and the value is an invalid `QVariant`. -/
def valueToUInt (c : Cursor) : Nat :=
  match c with
  | [] => 0
  | v :: _ => v % 2 ^ 32

/-- Replace the dimension table selected by `t`. -/
def Database.setNames (db : Database) (t : NameTable) (tbl : Table QString) : Database :=
  match t with
  | .path_name => { db with path_name := tbl }
  | .function_name => { db with function_name := tbl }

/-- The statement `SELECT id FROM t WHERE name='%1';` with `arg` spliced in.
The result is `none` when the text is a statement this embedding does not
interpret. -/
def execSelectNameId (db : Database) (t : NameTable) (arg : QString) : Option Cursor :=
  match readSpliced arg selectEnd with
  | .value v => some ((db.names t).idsOf v)
  | .syntaxError => some []
  | .other => none

/-- The statement `INSERT INTO t VALUES(NULL, '%1');` with `arg` spliced in.
When the table has no next key the statement fails with `SQLITE_FULL`
(`Database.full`); a name the table already holds violates `UNIQUE(name)` and
the statement fails without any change; a statement that cannot be prepared
changes nothing. -/
def execInsertName (db : Database) (t : NameTable) (arg : QString) : Option Database :=
  match readSpliced arg valuesEnd with
  | .value v =>
    match (db.names t).insert v with
    | none => some db.full
    | some tbl =>
      if (db.names t).idsOf v = [] then
        some { db.setNames t tbl with lastInsertRowid := tbl.seq }
      else some db
  | .syntaxError => some db
  | .other => none

/-- The statement `SELECT last_insert_rowid() FROM t LIMIT 1;`: one row
holding the connection's last inserted key when `t` has a row, no row when
`t` is empty. -/
def execSelectLastInsertRowid {γ : Type} (db : Database) (t : Table γ) : Cursor :=
  match t.rows with
  | [] => []
  | _ :: _ => [db.lastInsertRowid]

/-- Are the five numbers of a trace point integers to SQL? -/
def TracePoint.isSql (tp : TracePoint) : Bool :=
  isSqlInteger tp.verbosity && isSqlInteger tp.type && isSqlInteger tp.path_id &&
  isSqlInteger tp.line && isSqlInteger tp.function_id

/-- The statement `SELECT id FROM trace_point WHERE verbosity=%1 AND type=%2
AND path_id=%3 AND line=%4 AND function_id=%5;`.  The result is `none` when
one of the numbers is not an integer to SQL. -/
def execSelectTracePointId (db : Database) (tp : TracePoint) : Option Cursor :=
  if tp.isSql then some (db.trace_point.idsOf tp) else none

/-- The statement `INSERT OR IGNORE INTO trace_point VALUES(NULL, %1, %2, %3,
%4, %5);`.  When the table has no next key the statement fails with
`SQLITE_FULL`; a row whose five columns are already in the table is ignored,
and the key it would have got is used up all the same. -/
def execInsertTracePoint (db : Database) (tp : TracePoint) : Option Database :=
  if tp.isSql then
    match db.trace_point.insert tp with
    | none => some db.full
    | some tbl =>
      if db.trace_point.idsOf tp = [] then
        some { db with trace_point := tbl, lastInsertRowid := tbl.seq }
      else some { db with trace_point := { db.trace_point with seq := tbl.seq } }
  else none

/-! ## The insert into `trace_entry` and what a message can add to it -/

/-- A row of values in the insert into `trace_entry`: the key (`none` for
`NULL`) and the five other columns. -/
structure EntryRow where
  key : Option Nat
  cols : EntryCols
deriving DecidableEq

/-- Read an integer literal: one or more digits below 2^63, and the text
after them. -/
def readInteger (s : QString) : Option (Nat × QString) :=
  match s.takeWhile isDigitChar with
  | [] => none
  | d :: ds =>
    match parseDigits 0 (d :: ds) with
    | none => none
    | some v => if isSqlInteger v then some (v, s.dropWhile isDigitChar) else none

/-- Read a key: `NULL` or an integer literal. -/
def readKey (s : QString) : Option (Option Nat × QString) :=
  match stripFront "NULL".toList s with
  | some rest => some (none, rest)
  | none =>
    match readInteger s with
    | none => none
    | some (k, rest) => some (some k, rest)

/-- Read an integer literal and the comma after it. -/
def readIntegerComma (s : QString) : Option (Nat × QString) :=
  match readInteger s with
  | none => none
  | some (v, rest) =>
    match stripFront ",".toList rest with
    | none => none
    | some rest1 => some (v, rest1)

/-- Read one further row of values, from the text after its opening
parenthesis: a key, four integers and a string literal, separated by commas
without blanks, and the closing parenthesis. -/
def readEntryRow (s : QString) : Option (EntryRow × QString) :=
  match readKey s with
  | none => none
  | some (k, s0) =>
    match stripFront ",".toList s0 with
    | none => none
    | some s1 =>
      match readIntegerComma s1 with
      | none => none
      | some (pid, s2) =>
        match readIntegerComma s2 with
        | none => none
        | some (tid, s3) =>
          match readIntegerComma s3 with
          | none => none
          | some (timestamp, s4) =>
            match readIntegerComma s4 with
            | none => none
            | some (tracepointId, s5) =>
              match stripFront [sqlQuote] s5 with
              | none => none
              | some s6 =>
                match lexQuoted s6 with
                | .unterminated => none
                | .closed v s7 =>
                  match stripFront ")".toList s7 with
                  | none => none
                  | some s8 => some (⟨k, ⟨pid, tid, timestamp, tracepointId, v⟩⟩, s8)

/-- Read the further rows `,(...)` one after the other, at most `fuel` of
them, and return them with the text that is left. -/
def readEntryRows : Nat → QString → List EntryRow × QString
  | 0, s => ([], s)
  | fuel + 1, s =>
    match stripFront ",(".toList s with
    | none => ([], s)
    | some s1 =>
      match readEntryRow s1 with
      | none => ([], s)
      | some (r, s2) => ((r :: (readEntryRows fuel s2).1), (readEntryRows fuel s2).2)

/-- The upsert clause that the embedding reads, up to the opening quote of
its string literal. -/
def upsertText : QString := " ON CONFLICT(id) DO UPDATE SET message=(".toList ++ [sqlQuote]

/-- Read what follows the first string literal of the insert into
`trace_entry` when it is not the end of the template: the closing
parenthesis of the first row, further rows, and then either the end of the
statement or the upsert clause `ON CONFLICT(id) DO UPDATE SET
message=('...')` and the end of the statement. -/
def readEntryTail (rest : QString) : Option (List EntryRow × Option QString) :=
  match stripFront ")".toList rest with
  | none => none
  | some s =>
    let r := readEntryRows s.length s
    if r.2 = ";".toList then some (r.1, none)
    else
      match stripFront upsertText r.2 with
      | none => none
      | some s2 =>
        match lexQuoted s2 with
        | .unterminated => none
        | .closed v s3 => if s3 = ");".toList then some (r.1, some v) else none

/-- What the SQL engine makes of the insert into `trace_entry` with a spliced
message. -/
inductive EntryInsert where
  /-- the statement inserts the template row with this message, then the
  further rows, under the upsert clause if there is one -/
  | rows (message : QString) (more : List EntryRow) (upsert : Option QString)
  /-- the statement does not tokenize: preparing it fails -/
  | syntaxError
  /-- some other statement text, which this embedding does not interpret -/
  | other
deriving DecidableEq

/-- Reading of `INSERT INTO trace_entry VALUES(NULL, %1, %2, %3, %4, '%5');`
with `arg` spliced in as `%5`. -/
def readEntryInsert (arg : QString) : EntryInsert :=
  match readSpliced arg valuesEnd with
  | .value v => .rows v [] none
  | .syntaxError => .syntaxError
  | .other =>
    match lexQuoted ((arg ++ sqlQuote :: valuesEnd).takeWhile (fun c => decide (c ≠ nulChar))) with
    | .unterminated => .syntaxError
    | .closed v rest =>
      match readEntryTail rest with
      | none => .other
      | some (more, upsert) => .rows v more upsert

/-- Give the row with key `k` the message `v`. -/
def setMessage (k : Nat) (v : QString) : List (Row EntryCols) → List (Row EntryCols)
  | [] => []
  | r :: rs =>
    if r.id = k then { r with cols := { r.cols with message := v } } :: setMessage k v rs
    else r :: setMessage k v rs

/-- How a statement that inserts several rows ends. -/
inductive RowsOutcome where
  /-- all rows are in -/
  | done (db : Database)
  /-- a key was taken and there is no upsert clause: the statement fails and
  none of its rows stays; `last_insert_rowid()` is the key of the last row
  that had been inserted -/
  | aborted (lastInsertRowid : Nat)
  /-- a row with the key `NULL` found no next key -/
  | full

/-- Insert the rows of one statement in order.  A `NULL` key takes the next
key of the table; an explicit key that is free is taken as it is; an explicit
key that is taken updates the message of the row that has it when there is an
upsert clause, and makes the statement fail when there is none. -/
def runEntryRows (upsert : Option QString) : Database → List EntryRow → RowsOutcome
  | db, [] => .done db
  | db, r :: rs =>
    match r.key with
    | none =>
      match db.trace_entry.insert r.cols with
      | none => .full
      | some tbl => runEntryRows upsert { db with trace_entry := tbl, lastInsertRowid := tbl.seq } rs
    | some k =>
      if db.trace_entry.hasKey k then
        match upsert with
        | none => .aborted db.lastInsertRowid
        | some v =>
          runEntryRows upsert
            { db with trace_entry :=
                { db.trace_entry with rows := setMessage k v db.trace_entry.rows } } rs
      else
        runEntryRows upsert
          { db with trace_entry := db.trace_entry.insertWithKey k r.cols,
                    lastInsertRowid := k } rs

/-- The statement `INSERT INTO trace_entry VALUES(NULL, %1, %2, %3, %4,
'%5');` with the message spliced in as `%5`.  A statement that cannot be
prepared changes nothing.  The template statement appends one row, or fails
with `SQLITE_FULL` when the table has no next key.  A message that closes the
string literal and adds rows or an upsert clause is read as such.  The result
is `none` when the embedding does not interpret the statement: other
statement text, a number that is not an integer to SQL, or a statement with
added rows or an upsert clause that runs out of keys. -/
def execInsertTraceEntry (db : Database) (pid tid timestamp tracepointId : Nat)
    (arg : QString) : Option Database :=
  match readEntryInsert arg with
  | .syntaxError => some db
  | .other => none
  | .rows v more upsert =>
    if isSqlInteger pid && isSqlInteger tid && isSqlInteger timestamp &&
        isSqlInteger tracepointId then
      match more, upsert with
      | [], none =>
        match db.trace_entry.insert ⟨pid, tid, timestamp, tracepointId, v⟩ with
        | none => some db.full
        | some tbl => some { db with trace_entry := tbl, lastInsertRowid := tbl.seq }
      | _, _ =>
        match runEntryRows upsert db (⟨none, ⟨pid, tid, timestamp, tracepointId, v⟩⟩ :: more) with
        | .done db1 => some db1
        | .aborted k => some { db with lastInsertRowid := k }
        | .full => none
    else none

/-! ## `Server::storeEntry` -/

/-- The block that `storeEntry` runs once on `path_name` with `e.path`
(server.cpp lines 120-131) and once on `function_name` with `e.function`
(lines 134-145): select the id by name; when `next()` finds no row, insert
the name and select `last_insert_rowid()`; read the id with `toUInt`
(`valueToUInt`). -/
def resolveNameId (db : Database) (t : NameTable) (name : QString) : Option (Database × Nat) :=
  match execSelectNameId db t name with
  | none => none
  | some (i :: rest) => some (db, valueToUInt (i :: rest))
  | some [] =>
    match execInsertName db t name with
    | none => none
    | some db1 => some (db1, valueToUInt (execSelectLastInsertRowid db1 (db1.names t)))

/-- The block of `storeEntry` on `trace_point` (server.cpp lines 148-159). -/
def resolveTracePointId (db : Database) (tp : TracePoint) : Option (Database × Nat) :=
  match execSelectTracePointId db tp with
  | none => none
  | some (i :: rest) => some (db, valueToUInt (i :: rest))
  | some [] =>
    match execInsertTracePoint db tp with
    | none => none
    | some db1 => some (db1, valueToUInt (execSelectLastInsertRowid db1 db1.trace_point))

/-- The routine `Server::storeEntry` (server.cpp lines 111-164).  The result
is `none` only when the embedding does not interpret one of the statements
that the entry makes. -/
def storeEntry (db : Database) (e : TraceEntry) : Option Database :=
  let db0 := execBegin db
  match resolveNameId db0 .path_name e.path with
  | none => none
  | some (db1, pathId) =>
    match resolveNameId db1 .function_name e.function with
    | none => none
    | some (db2, functionId) =>
      match resolveTracePointId db2 ⟨e.verbosity, e.type, pathId, e.lineno, functionId⟩ with
      | none => none
      | some (db3, tracepointId) =>
        match execInsertTraceEntry db3 e.pid e.tid e.timestamp tracepointId e.message with
        | none => none
        | some db4 => some (execCommit db4)

/-! ## The DOM that `deserializeTraceEntry` reads -/

/-- A node of a parsed document, as far as `QDomNode::nodeName`,
`QDomElement::attribute` and `QDomElement::text` tell nodes apart: elements,
character data (text and CDATA sections), and the remaining kinds (comments,
processing instructions, entity references), which have a node name and no
text. -/
inductive QDomNode where
  | element (tagName : QString) (attributes : List (QString × QString))
      (children : List QDomNode)
  | characterData (data : QString)
  | misc (nodeName : QString)

/-- The result of `QDomNode::toElement()`: the element itself, or the null
element (`none`) for a node that is not an element. -/
abbrev QDomElement := Option QDomNode

/-- The name `QDomNode::nodeName()` reports. -/
def QDomNode.nodeName : QDomNode → QString
  | .element tag _ _ => tag
  | .characterData _ => "#text".toList
  | .misc n => n

/-- The children of a node (only elements have any). -/
def QDomNode.childNodes : QDomNode → List QDomNode
  | .element _ _ cs => cs
  | _ => []

/-- The attribute list of a node (only elements have one). -/
def QDomNode.attributeList : QDomNode → List (QString × QString)
  | .element _ as _ => as
  | _ => []

/-- The call `toElement()`: null unless the node is an element. -/
def QDomNode.toElement : QDomNode → QDomElement
  | .element tag as cs => some (.element tag as cs)
  | _ => none

/-- The call `e.namedItem( name ).toElement()`: the first direct child whose
node name is `name`, converted to an element; null when there is no such
child, when that child is not an element, or when `e` is null. -/
def namedItem (e : QDomElement) (name : QString) : QDomElement :=
  match e with
  | none => none
  | some n =>
    match n.childNodes.find? (fun c => decide (c.nodeName = name)) with
    | none => none
    | some c => c.toElement

/-- The call `e.attribute( name )`: the value of the attribute, or the empty
string when the element has no such attribute or is null. -/
def attributeValue (e : QDomElement) (name : QString) : QString :=
  match e with
  | none => []
  | some n =>
    match n.attributeList.find? (fun a => decide (a.1 = name)) with
    | none => []
    | some a => a.2

mutual
/-- Text of a node as `QDomElement::text()` collects it: character data
contributes itself, an element the text of its children, other nodes
nothing. -/
def QDomNode.text : QDomNode → QString
  | .element _ _ cs => QDomNode.textOfList cs
  | .characterData d => d
  | .misc _ => []
/-- Concatenated text of a list of sibling nodes. -/
def QDomNode.textOfList : List QDomNode → QString
  | [] => []
  | c :: cs => QDomNode.text c ++ QDomNode.textOfList cs
end

/-- The call `e.text()`; the null element has empty text. -/
def text (e : QDomElement) : QString :=
  match e with
  | none => []
  | some n => n.text

/-! ## Numbers in text -/

/-- White space that the number conversions of `QString` skip at both ends
(the ASCII white-space characters). -/
def isSpace (c : Char) : Bool :=
  c.toNat = 32 || (9 ≤ c.toNat && c.toNat ≤ 13)

/-- The text without leading and trailing white space. -/
def trimmed (s : QString) : QString :=
  (((s.dropWhile isSpace).reverse).dropWhile isSpace).reverse

/-- The conversion `QString::toULongLong()` in base 10: white space around the
number and a leading plus sign are accepted; the result is 0 when the text is
not a number or does not fit 64 bits. -/
def QString.toULongLong (s : QString) : Nat :=
  let t := trimmed s
  let u := match t with
    | [] => []
    | c :: cs => if c = Char.ofNat 43 then cs else c :: cs
  match u with
  | [] => 0
  | _ :: _ =>
    match parseDigits 0 u with
    | none => 0
    | some v => if v < 2 ^ 64 then v else 0

/-- The conversion `QString::toUInt()`: `toULongLong`, and 0 when the value
exceeds `UINT_MAX`. -/
def QString.toUInt (s : QString) : Nat :=
  let v := QString.toULongLong s
  if v > 4294967295 then 0 else v

/-- The conversion `QString::toULong()`: `toULongLong`, and 0 when the value
exceeds `ULONG_MAX`, which depends on the platform and is a parameter. -/
def QString.toULong (ulongMax : Nat) (s : QString) : Nat :=
  let v := QString.toULongLong s
  if v > ulongMax then 0 else v

/-! ## `deserializeTraceEntry` and `Server::handleIncomingData` -/

/-- The function `deserializeTraceEntry` (server.cpp lines 15-28). -/
def deserializeTraceEntry (ulongMax : Nat) (e : QDomElement) : TraceEntry :=
  { pid := QString.toUInt (attributeValue e "pid".toList)
    tid := QString.toUInt (attributeValue e "tid".toList)
    timestamp := QString.toULong ulongMax (attributeValue e "time".toList)
    verbosity := QString.toUInt (text (namedItem e "verbosity".toList))
    type := QString.toUInt (text (namedItem e "type".toList))
    path := text (namedItem e "location".toList)
    lineno := QString.toULong ulongMax (attributeValue (namedItem e "location".toList) "lineno".toList)
    function := text (namedItem e "function".toList)
    message := text (namedItem e "message".toList) }

/-- Bytes returned by one `client->readAll()`. -/
abbrev QByteArray := List (Fin 256)

/-- The slot `Server::handleIncomingData` (server.cpp lines 94-109) on the
bytes `xmlData` of one read.  `setContent` stands for the XML reader of Qt:
`QDomDocument::setContent` followed by `documentElement()`, with `none` when
`setContent` returns false.  The result is the store afterwards (`none` when
the embedding does not interpret a statement of `storeEntry`) and the entry
emitted with `traceEntryReceived`, if any; the server keeps nothing else from
one call to the next. -/
def handleIncomingData (setContent : QByteArray → Option QDomElement) (ulongMax : Nat)
    (db : Database) (xmlData : QByteArray) : Option Database × Option TraceEntry :=
  match setContent xmlData with
  | none => (some db, none)
  | some root =>
    (storeEntry db (deserializeTraceEntry ulongMax root),
      some (deserializeTraceEntry ulongMax root))

/-! ## Filters in the configuration file (`src/gui/configuration.cpp`) -/

/-- The matching modes that `modeToString` and `stringToMode` name. -/
inductive MatchingMode where
  | StrictMatching
  | RegExpMatching
  | WildcardMatching
deriving DecidableEq

/-- The filter kinds that `Configuration::save` switches on. -/
inductive FilterType where
  | FunctionFilter
  | PathFilter
deriving DecidableEq

/-- The value `Filter`, as `readPathFilter` and `readFunctionFilter` fill
it. -/
structure Filter where
  type : FilterType
  matchingMode : MatchingMode
  term : QString
deriving DecidableEq

/-- An element as `QXmlStreamWriter` is told to write it and as
`QXmlStreamReader` hands it over: its name, its attributes and its character
data. -/
structure XmlElement where
  name : QString
  attributes : List (QString × QString)
  text : QString
deriving DecidableEq

/-- The function `Configuration::modeToString` (configuration.cpp lines
359-367). -/
def modeToString (m : MatchingMode) : QString :=
  if m = .WildcardMatching then "wildcard".toList
  else if m = .RegExpMatching then "regexp".toList
  else "strict".toList

/-- The function `Configuration::stringToMode` (lines 369-381): the mode and
the flag written to `*bOk`. -/
def stringToMode (s : QString) : MatchingMode × Bool :=
  if s = "wildcard".toList then (.WildcardMatching, true)
  else if s = "regexp".toList then (.RegExpMatching, true)
  else if s = "strict".toList then (.StrictMatching, true)
  else (.StrictMatching, false)

/-- The function `Configuration::parseMatchingMode` (lines 210-218): the mode,
and whether `m_xml.raiseError` is called. -/
def parseMatchingMode (s : QString) : MatchingMode × Bool :=
  ((stringToMode s).1, !(stringToMode s).2)

/-- The call `m_xml.attributes().value( name ).toString()`: the value of the
attribute, empty when the element has none of that name. -/
def XmlElement.attributeString (el : XmlElement) (name : QString) : QString :=
  match el.attributes.find? (fun a => decide (a.1 = name)) with
  | none => []
  | some a => a.2

/-- The function `Configuration::readPathFilter` (lines 220-230) on the
element the reader stands on: the filter appended to the trace point set, and
whether an error was raised. -/
def readPathFilter (el : XmlElement) : Filter × Bool :=
  let r := parseMatchingMode (el.attributeString "matchingmode".toList)
  ({ type := .PathFilter, matchingMode := r.1, term := el.text }, r.2)

/-- The function `Configuration::readFunctionFilter` (lines 232-242). -/
def readFunctionFilter (el : XmlElement) : Filter × Bool :=
  let r := parseMatchingMode (el.attributeString "matchingmode".toList)
  ({ type := .PathFilter, matchingMode := r.1, term := el.text }, r.2)

/-- The choice of reader in `Configuration::readTracePointSetElement` (lines
196-204): by element name; any other element raises an error and appends no
filter. -/
def readFilterElement (el : XmlElement) : Option Filter × Bool :=
  if el.name = "pathfilter".toList then ((readPathFilter el).1, (readPathFilter el).2)
  else if el.name = "functionfilter".toList then
    ((readFunctionFilter el).1, (readFunctionFilter el).2)
  else (none, true)

/-- The element `Configuration::save` writes for one filter (the body of the
loop over `m_filters`, lines 325-340). -/
def saveFilter (f : Filter) : XmlElement :=
  match f.type with
  | .FunctionFilter =>
    { name := "functionfilter".toList
      attributes := [("matchingmode".toList, modeToString f.matchingMode)]
      text := f.term }
  | .PathFilter =>
    { name := "pathfilter".toList
      attributes := [("matchingmode".toList, modeToString f.matchingMode)]
      text := f.term }

/-! ## Predicates used in the statements -/

/-- Text without a quote and without a NUL: the only text that a statement
template hands to the SQL engine unchanged. -/
def isPlain (s : QString) : Bool :=
  s.all (fun c => decide (c ≠ sqlQuote) && decide (c ≠ nulChar))

/-- An unsigned decimal numeral: one or more of the digits `0` to `9`. -/
def isNumeral (s : QString) : Bool :=
  !s.isEmpty && s.all isDigitChar

/-- The number a decimal numeral denotes, read independently of the
conversion code: the digits, least significant first, weighted by powers of
ten. -/
def numeralValue (s : QString) : Nat :=
  Nat.ofDigits 10 (s.reverse.map (fun c => c.toNat - 48))

/-- Does the element carry an attribute of this name? -/
def hasAttribute (e : QDomElement) (name : QString) : Bool :=
  match e with
  | none => false
  | some n => n.attributeList.any (fun a => decide (a.1 = name))

/-- Is the node an element with this tag name? -/
def QDomNode.isElementNamed (name : QString) : QDomNode → Bool
  | .element tag _ _ => decide (tag = name)
  | _ => false

/-- Does the element have a child element of this name? -/
def hasChildElement (e : QDomElement) (name : QString) : Bool :=
  match e with
  | none => false
  | some n => n.childNodes.any (QDomNode.isElementNamed name)

/-- The document of the end-to-end example, as `documentElement()` returns
it. -/
def sampleDocument : QDomElement :=
  some (.element "traceentry".toList
    [("pid".toList, "100".toList), ("tid".toList, "5".toList), ("time".toList, "123456".toList)]
    [.element "verbosity".toList [] [.characterData "2".toList],
     .element "type".toList [] [.characterData "0".toList],
     .element "location".toList [("lineno".toList, "42".toList)]
       [.characterData "/a/b.cpp".toList],
     .element "function".toList [] [.characterData "foo".toList],
     .element "message".toList [] [.characterData "hello".toList]])

/-- A reader that accepts one document only: the four bytes of `<t/>`, whose
document element is the empty element `t`.  Every other byte sequence is
rejected. -/
def readerOfOneDocument (b : QByteArray) : Option QDomElement :=
  if b = [60, 116, 47, 62] then some (some (.element "t".toList [] [])) else none

/-- The entry of the end-to-end example: pid 100, tid 5, time 123456,
verbosity 2, type 0, path `/a/b.cpp`, line 42, function `foo`, message
`hello`. -/
def sampleEntry : TraceEntry :=
  ⟨100, 5, 123456, 2, 0, "/a/b.cpp".toList, 42, "foo".toList, "hello".toList⟩

/-- Run `storeEntry` on the entries in order. -/
def storeEntries : Database → List TraceEntry → Option Database
  | db, [] => some db
  | db, e :: es =>
    match storeEntry db e with
    | none => none
    | some db1 => storeEntries db1 es

/-- The store of the end-to-end example: the empty store after `storeEntry`
on `sampleEntry`. -/
def sampleStore : Database :=
  { path_name := ⟨[⟨1, "/a/b.cpp".toList⟩], 1⟩
    function_name := ⟨[⟨1, "foo".toList⟩], 1⟩
    trace_point := ⟨[⟨1, ⟨2, 0, 1, 42, 1⟩⟩], 1⟩
    trace_entry := ⟨[⟨1, ⟨100, 5, 123456, 1, "hello".toList⟩⟩], 1⟩
    variable_value := []
    backtrace := []
    lastInsertRowid := 1
    transaction := none }

/-- Referential integrity of the store: the `tracepoint_id` of every
`trace_entry` row is the key of a `trace_point` row, and the `path_id` and
`function_id` of every `trace_point` row are keys of a `path_name` row and of
a `function_name` row. -/
def refIntegrity (db : Database) : Bool :=
  db.trace_entry.rows.all (fun r =>
    db.trace_point.rows.any (fun tp => decide (tp.id = r.cols.tracepoint_id))) &&
  db.trace_point.rows.all (fun tp =>
    db.path_name.rows.any (fun p => decide (p.id = tp.cols.path_id)) &&
    db.function_name.rows.any (fun f => decide (f.id = tp.cols.function_id)))

/-! # Theorems -/

/-! ## Plain text reads back as itself -/

theorem lexQuoted_plain (arg : QString) (d : Char) (ds : QString)
    (harg : ∀ c ∈ arg, c ≠ sqlQuote) (hd : d ≠ sqlQuote) :
    lexQuoted (arg ++ sqlQuote :: d :: ds) = .closed arg (d :: ds) := by
  induction arg with
  | nil => simp [lexQuoted, hd]
  | cons c cs ih =>
    have hc : c ≠ sqlQuote := harg c (List.mem_cons_self _ _)
    have hcs : ∀ x ∈ cs, x ≠ sqlQuote := fun x hx => harg x (List.mem_cons_of_mem _ hx)
    have hne : ∃ x xs, cs ++ sqlQuote :: d :: ds = x :: xs := by
      cases cs with
      | nil => exact ⟨_, _, rfl⟩
      | cons y ys => exact ⟨_, _, rfl⟩
    obtain ⟨x, xs, hx⟩ := hne
    have key : lexQuoted (c :: x :: xs) = (lexQuoted (x :: xs)).push c := by
      simp [lexQuoted, hc]
    rw [List.cons_append, hx, key, ← hx, ih hcs]
    rfl

theorem takeWhile_all {α : Type} (p : α → Bool) (l : List α) (h : ∀ x ∈ l, p x = true) :
    l.takeWhile p = l := by
  induction l with
  | nil => rfl
  | cons a as ih =>
    have ha : p a = true := h a (List.mem_cons_self _ _)
    simp [List.takeWhile, ha, ih (fun x hx => h x (List.mem_cons_of_mem _ hx))]

theorem isPlain_iff (s : QString) :
    isPlain s = true ↔ ∀ c ∈ s, c ≠ sqlQuote ∧ c ≠ nulChar := by
  simp [isPlain, List.all_eq_true]

theorem readSpliced_plain_semi (arg : QString) (h : isPlain arg = true) :
    readSpliced arg selectEnd = .value arg := by
  rw [isPlain_iff] at h
  have hq : sqlQuote ≠ nulChar := by decide
  have htw : (arg ++ sqlQuote :: ";".toList).takeWhile (fun c => decide (c ≠ nulChar))
      = arg ++ sqlQuote :: ";".toList := by
    apply takeWhile_all
    intro x hx
    simp only [List.mem_append, List.mem_cons] at hx
    rcases hx with hx | hx | hx
    · simpa using (h x hx).2
    · subst hx; simpa using hq
    · have : x = Char.ofNat 59 := by simpa using hx
      subst this; decide
  unfold readSpliced selectEnd
  rw [htw]
  have := lexQuoted_plain arg (Char.ofNat 59) [] (fun c hc => (h c hc).1) (by decide)
  have hs : ";".toList = [Char.ofNat 59] := by decide
  rw [hs, this]
  simp

theorem readSpliced_plain_paren (arg : QString) (h : isPlain arg = true) :
    readSpliced arg valuesEnd = .value arg := by
  rw [isPlain_iff] at h
  have hq : sqlQuote ≠ nulChar := by decide
  have hs : ");".toList = [Char.ofNat 41, Char.ofNat 59] := by decide
  have htw : (arg ++ sqlQuote :: ");".toList).takeWhile (fun c => decide (c ≠ nulChar))
      = arg ++ sqlQuote :: ");".toList := by
    apply takeWhile_all
    intro x hx
    rw [hs] at hx
    simp only [List.mem_append, List.mem_cons] at hx
    rcases hx with hx | hx | hx | hx | hx
    · simpa using (h x hx).2
    · subst hx; simpa using hq
    · subst hx; decide
    · subst hx; decide
    · simp at hx
  unfold readSpliced valuesEnd
  rw [htw]
  have := lexQuoted_plain arg (Char.ofNat 41) [Char.ofNat 59] (fun c hc => (h c hc).1) (by decide)
  rw [hs, this]
  simp

/-! ## The statements on plain text -/

theorem insert_of_hasRoom {γ : Type} (t : Table γ) (c : γ) (h : t.hasRoom = true) :
    t.insert c = some ⟨t.rows ++ [⟨t.largestKey + 1, c⟩], t.largestKey + 1⟩ := by
  simp only [Table.hasRoom, decide_eq_true_eq] at h
  simp [Table.insert, Table.nextId, h]

theorem readEntryInsert_plain (msg : QString) (h : isPlain msg = true) :
    readEntryInsert msg = .rows msg [] none := by
  simp [readEntryInsert, readSpliced_plain_paren msg h]

theorem readEntryInsert_syntaxError (msg : QString)
    (h : readSpliced msg valuesEnd = .syntaxError) : readEntryInsert msg = .syntaxError := by
  simp [readEntryInsert, h]

theorem names_setNames (db : Database) (t : NameTable) (tbl : Table QString) (k : Nat) :
    ({ db.setNames t tbl with lastInsertRowid := k } : Database).names t = tbl := by
  cases t <;> rfl

theorem names_setNames_other (db : Database) (t t1 : NameTable) (tbl : Table QString) (k : Nat)
    (h : t1 ≠ t) :
    ({ db.setNames t tbl with lastInsertRowid := k } : Database).names t1 = db.names t1 := by
  cases t <;> cases t1 <;> first | rfl | exact absurd rfl h

theorem execSelectNameId_plain (db : Database) (t : NameTable) (name : QString)
    (h : isPlain name = true) :
    execSelectNameId db t name = some ((db.names t).idsOf name) := by
  simp [execSelectNameId, readSpliced_plain_semi name h]

theorem execInsertName_plain (db : Database) (t : NameTable) (name : QString)
    (h : isPlain name = true) (hnew : (db.names t).idsOf name = [])
    (hroom : (db.names t).hasRoom = true) :
    execInsertName db t name =
      some { db.setNames t ⟨(db.names t).rows ++ [⟨(db.names t).largestKey + 1, name⟩],
                            (db.names t).largestKey + 1⟩ with
             lastInsertRowid := (db.names t).largestKey + 1 } := by
  simp [execInsertName, readSpliced_plain_paren name h, hnew, insert_of_hasRoom _ _ hroom]

/-- Get: a plain name that the table holds resolves to the key of its first
row (as `unsigned int`) and leaves the store alone. -/
theorem resolveNameId_found (db : Database) (t : NameTable) (name : QString) (i : Nat)
    (rest : List Nat) (h : isPlain name = true) (hf : (db.names t).idsOf name = i :: rest) :
    resolveNameId db t name = some (db, i % 2 ^ 32) := by
  simp [resolveNameId, execSelectNameId_plain db t name h, hf, valueToUInt]

/-- Create: a plain name that the table does not hold is appended under the
next key when the table has room, and that key is the id the block reads
back. -/
theorem resolveNameId_new (db : Database) (t : NameTable) (name : QString)
    (h : isPlain name = true) (hnew : (db.names t).idsOf name = [])
    (hroom : (db.names t).hasRoom = true) :
    resolveNameId db t name =
      some ({ db.setNames t ⟨(db.names t).rows ++ [⟨(db.names t).largestKey + 1, name⟩],
                             (db.names t).largestKey + 1⟩ with
              lastInsertRowid := (db.names t).largestKey + 1 },
            ((db.names t).largestKey + 1) % 2 ^ 32) := by
  have hrows : ∃ r rs, (db.names t).rows ++ [⟨(db.names t).largestKey + 1, name⟩] = r :: rs := by
    cases (db.names t).rows with
    | nil => exact ⟨_, _, rfl⟩
    | cons a as => exact ⟨_, _, rfl⟩
  obtain ⟨r, rs, hr⟩ := hrows
  simp [resolveNameId, execSelectNameId_plain db t name h, hnew,
    execInsertName_plain db t name h hnew hroom, execSelectLastInsertRowid, names_setNames, hr,
    valueToUInt]

theorem idsOf_append_self {γ : Type} [DecidableEq γ] (t : Table γ) (k s : Nat) (c : γ)
    (h : t.idsOf c = []) : (Table.mk (t.rows ++ [⟨k, c⟩]) s).idsOf c = [k] := by
  simp only [Table.idsOf] at h
  simp [Table.idsOf, List.filter_append, h]

/-- Get-or-create on a plain name in a table with room: the block returns
the key (as `unsigned int`) of the first row with that name in the table
afterwards; an absent name is appended as one new row, a name that is present
leaves the store as it was, and no other table and no transaction is
touched. -/
theorem resolveNameId_plain (db : Database) (t : NameTable) (name : QString)
    (h : isPlain name = true) (hroom : (db.names t).hasRoom = true) :
    ∃ db1 i, resolveNameId db t name = some (db1, i) ∧
      (∃ j rest, (db1.names t).idsOf name = j :: rest ∧ i = j % 2 ^ 32) ∧
      ((db.names t).idsOf name = [] → (db.names t).insert name = some (db1.names t)) ∧
      ((db.names t).idsOf name ≠ [] → db1 = db) ∧
      (∀ t1, t1 ≠ t → db1.names t1 = db.names t1) ∧
      db1.trace_point = db.trace_point ∧ db1.trace_entry = db.trace_entry ∧
      db1.variable_value = db.variable_value ∧ db1.backtrace = db.backtrace ∧
      db1.transaction = db.transaction := by
  cases hids : (db.names t).idsOf name with
  | nil =>
    refine ⟨_, _, resolveNameId_new db t name h hids hroom, ?_, ?_, ?_, ?_, ?_, ?_, ?_, ?_, ?_⟩
    · rw [names_setNames]
      exact ⟨_, [], idsOf_append_self _ _ _ _ hids, rfl⟩
    · intro _
      rw [names_setNames]
      exact insert_of_hasRoom _ _ hroom
    · intro hne
      exact absurd rfl hne
    · intro t1 ht1
      exact names_setNames_other db t t1 _ _ ht1
    · cases t <;> rfl
    · cases t <;> rfl
    · cases t <;> rfl
    · cases t <;> rfl
    · cases t <;> rfl
  | cons a as =>
    refine ⟨_, _, resolveNameId_found db t name a as h hids, ⟨a, as, hids, rfl⟩, ?_, ?_, ?_, rfl,
      rfl, rfl, rfl, rfl⟩
    · intro hc; simp at hc
    · intro _; rfl
    · intro _ _; rfl

/-- A name whose statements fail to tokenize: the block changes nothing and
reads whatever `last_insert_rowid()` happens to be (0 on an empty table). -/
theorem resolveNameId_syntaxError (db : Database) (t : NameTable) (name : QString)
    (hs : readSpliced name selectEnd = .syntaxError)
    (hi : readSpliced name valuesEnd = .syntaxError) :
    resolveNameId db t name =
      some (db, valueToUInt (execSelectLastInsertRowid db (db.names t))) := by
  simp [resolveNameId, execSelectNameId, execInsertName, hs, hi]

theorem valueToUInt_lt (c : Cursor) : valueToUInt c < 2 ^ 32 := by
  cases c with
  | nil => simp [valueToUInt]
  | cons v _ => exact Nat.mod_lt _ (by decide)

/-- The block on `trace_point` for numbers that are integers to SQL, in a
table with room: it returns the key (as `unsigned int`) of the first row with
these five columns in the table afterwards, appends the row when it was
absent, and touches no other table and no transaction. -/
theorem resolveTracePointId_sql (db : Database) (tp : TracePoint) (hsql : tp.isSql = true)
    (hroom : db.trace_point.hasRoom = true) :
    ∃ db1 i, resolveTracePointId db tp = some (db1, i) ∧
      (∃ j rest, db1.trace_point.idsOf tp = j :: rest ∧ i = j % 2 ^ 32) ∧
      (db.trace_point.idsOf tp = [] → db.trace_point.insert tp = some db1.trace_point) ∧
      (db.trace_point.idsOf tp ≠ [] → db1 = db) ∧
      db1.path_name = db.path_name ∧ db1.function_name = db.function_name ∧
      db1.trace_entry = db.trace_entry ∧ db1.variable_value = db.variable_value ∧
      db1.backtrace = db.backtrace ∧ db1.transaction = db.transaction := by
  cases hids : db.trace_point.idsOf tp with
  | cons a as =>
    refine ⟨db, a % 2 ^ 32, ?_, ⟨a, as, hids, rfl⟩, ?_, ?_, rfl, rfl, rfl, rfl, rfl, rfl⟩
    · simp [resolveTracePointId, execSelectTracePointId, hsql, hids, valueToUInt]
    · intro hc; simp at hc
    · intro _; rfl
  | nil =>
    have hrows : ∃ r rs, db.trace_point.rows ++ [⟨db.trace_point.largestKey + 1, tp⟩] = r :: rs := by
      cases db.trace_point.rows with
      | nil => exact ⟨_, _, rfl⟩
      | cons a as => exact ⟨_, _, rfl⟩
    obtain ⟨r, rs, hr⟩ := hrows
    refine ⟨{ db with trace_point := ⟨db.trace_point.rows ++ [⟨db.trace_point.largestKey + 1, tp⟩],
                                      db.trace_point.largestKey + 1⟩,
                      lastInsertRowid := db.trace_point.largestKey + 1 },
      (db.trace_point.largestKey + 1) % 2 ^ 32, ?_, ?_, ?_, ?_, rfl, rfl, rfl, rfl, rfl, rfl⟩
    · simp [resolveTracePointId, execSelectTracePointId, hsql, hids, execInsertTracePoint,
        insert_of_hasRoom _ _ hroom, execSelectLastInsertRowid, hr, valueToUInt]
    · exact ⟨_, [], idsOf_append_self _ _ _ _ hids, rfl⟩
    · intro _
      exact insert_of_hasRoom _ _ hroom
    · intro hne; exact absurd rfl hne

theorem isSqlInteger_of_lt (n : Nat) (h : n < 2 ^ 32) : isSqlInteger n = true := by
  simp only [isSqlInteger, decide_eq_true_eq]
  omega

/-! ## `storeEntry` on plain text -/

theorem execBegin_tables (db : Database) :
    (execBegin db).path_name = db.path_name ∧ (execBegin db).function_name = db.function_name ∧
    (execBegin db).trace_point = db.trace_point ∧ (execBegin db).trace_entry = db.trace_entry ∧
    (execBegin db).variable_value = db.variable_value ∧
    (execBegin db).backtrace = db.backtrace := by
  unfold execBegin
  cases db.transaction <;> exact ⟨rfl, rfl, rfl, rfl, rfl, rfl⟩

theorem storeEntry_of_steps (db d1 d2 d3 : Database) (e : TraceEntry) (p f tp : Nat)
    (h1 : resolveNameId (execBegin db) .path_name e.path = some (d1, p))
    (h2 : resolveNameId d1 .function_name e.function = some (d2, f))
    (h3 : resolveTracePointId d2 ⟨e.verbosity, e.type, p, e.lineno, f⟩ = some (d3, tp)) :
    storeEntry db e =
      (execInsertTraceEntry d3 e.pid e.tid e.timestamp tp e.message).map execCommit := by
  simp only [storeEntry, h1, h2, h3]
  cases execInsertTraceEntry d3 e.pid e.tid e.timestamp tp e.message <;> rfl

theorem rows_of_insert {γ : Type} (t t1 : Table γ) (c : γ) (h : t.insert c = some t1) :
    t1 = ⟨t.rows ++ [⟨t.largestKey + 1, c⟩], t.largestKey + 1⟩ ∧ t.hasRoom = true := by
  unfold Table.insert Table.nextId at h
  by_cases hk : t.largestKey < maxKey
  · simp only [if_pos hk] at h
    cases h
    exact ⟨rfl, by simp [Table.hasRoom, hk]⟩
  · simp only [if_neg hk] at h
    cases h

theorem mod_lt_uint (j : Nat) : j % 2 ^ 32 < 2 ^ 32 :=
  Nat.mod_lt _ (by decide)

/-- The steps of `storeEntry` after the block on `path_name`, when that block
has left the other tables alone: with a plain function name, numbers that are
integers to SQL and room in `function_name` and `trace_point`, the two
following blocks return, and what is left is the insert into `trace_entry`
and the commit. -/
theorem storeEntry_after_path (db d1 : Database) (e : TraceEntry) (p : Nat)
    (h1 : resolveNameId (execBegin db) .path_name e.path = some (d1, p)) (hplt : p < 2 ^ 32)
    (k2 : d1.function_name = db.function_name) (k3 : d1.trace_point = db.trace_point)
    (k4 : d1.trace_entry = db.trace_entry) (k5 : d1.variable_value = db.variable_value)
    (k6 : d1.backtrace = db.backtrace)
    (hf : isPlain e.function = true) (hverb : isSqlInteger e.verbosity = true)
    (htype : isSqlInteger e.type = true) (hline : isSqlInteger e.lineno = true)
    (rf : db.function_name.hasRoom = true) (rt : db.trace_point.hasRoom = true) :
    ∃ d3 f tp, storeEntry db e =
        (execInsertTraceEntry d3 e.pid e.tid e.timestamp tp e.message).map execCommit ∧
      d3.path_name = d1.path_name ∧ d3.trace_entry = db.trace_entry ∧
      (∃ j rest, d3.function_name.idsOf e.function = j :: rest ∧ f = j % 2 ^ 32) ∧
      (∃ j rest, d3.trace_point.idsOf ⟨e.verbosity, e.type, p, e.lineno, f⟩ = j :: rest ∧
        tp = j % 2 ^ 32) ∧
      (db.function_name.idsOf e.function = [] →
        db.function_name.insert e.function = some d3.function_name) ∧
      (db.function_name.idsOf e.function ≠ [] → d3.function_name = db.function_name) ∧
      (db.trace_point.idsOf ⟨e.verbosity, e.type, p, e.lineno, f⟩ = [] →
        db.trace_point.insert ⟨e.verbosity, e.type, p, e.lineno, f⟩ = some d3.trace_point) ∧
      (db.trace_point.idsOf ⟨e.verbosity, e.type, p, e.lineno, f⟩ ≠ [] →
        d3.trace_point = db.trace_point) ∧
      d3.variable_value = db.variable_value ∧ d3.backtrace = db.backtrace := by
  have rf1 : (d1.names .function_name).hasRoom = true := by
    show d1.function_name.hasRoom = true
    rw [k2]; exact rf
  obtain ⟨d2, f, h2, hf1, hf2, hf3, hf4, hf5, hf6, hf7, hf8, _⟩ :=
    resolveNameId_plain d1 .function_name e.function hf rf1
  have hflt : f < 2 ^ 32 := by
    obtain ⟨j, _, _, hj⟩ := hf1
    rw [hj]; exact mod_lt_uint j
  have hpn2 : d2.path_name = d1.path_name := by
    have := hf4 .path_name (by decide)
    simpa only [Database.names] using this
  have hsql : (⟨e.verbosity, e.type, p, e.lineno, f⟩ : TracePoint).isSql = true := by
    simp [TracePoint.isSql, hverb, htype, hline, isSqlInteger_of_lt p hplt,
      isSqlInteger_of_lt f hflt]
  have rt2 : d2.trace_point.hasRoom = true := by
    rw [hf5, k3]; exact rt
  obtain ⟨d3, tp, h3, ht1, ht2, ht3, ht4, ht5, ht6, ht7, ht8, _⟩ :=
    resolveTracePointId_sql d2 ⟨e.verbosity, e.type, p, e.lineno, f⟩ hsql rt2
  have htp2 : d2.trace_point = db.trace_point := by rw [hf5, k3]
  refine ⟨d3, f, tp, storeEntry_of_steps db d1 d2 d3 e p f tp h1 h2 h3, ?_, ?_, ?_, ht1, ?_, ?_,
    ?_, ?_, ?_, ?_⟩
  · rw [ht4, hpn2]
  · rw [ht6, hf6, k4]
  · rw [ht5]
    exact hf1
  · intro hc
    rw [ht5]
    have := hf2 (by simp only [Database.names]; rw [k2]; exact hc)
    simp only [Database.names] at this
    rw [k2] at this
    exact this
  · intro hc
    rw [ht5]
    have := hf3 (by simp only [Database.names]; rw [k2]; exact hc)
    rw [this, k2]
  · intro hc
    have := ht2 (by rw [htp2]; exact hc)
    rw [htp2] at this
    exact this
  · intro hc
    have := ht3 (by rw [htp2]; exact hc)
    rw [this, htp2]
  · rw [ht7, hf7, k5]
  · rw [ht8, hf8, k6]

/-- The steps of `storeEntry` before the insert into `trace_entry`, on a
plain path and a plain function name: the three blocks return the keys of the
rows with the path, with the function and with the trace point, each of which
has been appended when it was absent, and `trace_entry` is as it was. -/
theorem storeEntry_resolve_plain (db : Database) (e : TraceEntry) (hp : isPlain e.path = true)
    (hf : isPlain e.function = true) (hverb : isSqlInteger e.verbosity = true)
    (htype : isSqlInteger e.type = true) (hline : isSqlInteger e.lineno = true)
    (rp : db.path_name.hasRoom = true) (rf : db.function_name.hasRoom = true)
    (rt : db.trace_point.hasRoom = true) :
    ∃ d3 p f tp, storeEntry db e =
        (execInsertTraceEntry d3 e.pid e.tid e.timestamp tp e.message).map execCommit ∧
      d3.trace_entry = db.trace_entry ∧
      (∃ j rest, d3.path_name.idsOf e.path = j :: rest ∧ p = j % 2 ^ 32) ∧
      (∃ j rest, d3.function_name.idsOf e.function = j :: rest ∧ f = j % 2 ^ 32) ∧
      (∃ j rest, d3.trace_point.idsOf ⟨e.verbosity, e.type, p, e.lineno, f⟩ = j :: rest ∧
        tp = j % 2 ^ 32) ∧
      (db.path_name.idsOf e.path = [] → db.path_name.insert e.path = some d3.path_name) ∧
      (db.path_name.idsOf e.path ≠ [] → d3.path_name = db.path_name) ∧
      (db.function_name.idsOf e.function = [] →
        db.function_name.insert e.function = some d3.function_name) ∧
      (db.function_name.idsOf e.function ≠ [] → d3.function_name = db.function_name) ∧
      (db.trace_point.idsOf ⟨e.verbosity, e.type, p, e.lineno, f⟩ = [] →
        db.trace_point.insert ⟨e.verbosity, e.type, p, e.lineno, f⟩ = some d3.trace_point) ∧
      (db.trace_point.idsOf ⟨e.verbosity, e.type, p, e.lineno, f⟩ ≠ [] →
        d3.trace_point = db.trace_point) ∧
      d3.variable_value = db.variable_value ∧ d3.backtrace = db.backtrace := by
  obtain ⟨b1, b2, b3, b4, b5, b6⟩ := execBegin_tables db
  have rp0 : ((execBegin db).names .path_name).hasRoom = true := by
    show (execBegin db).path_name.hasRoom = true
    rw [b1]; exact rp
  obtain ⟨d1, p, h1, hp1, hp2, hp3, hp4, hp5, hp6, hp7, hp8, _⟩ :=
    resolveNameId_plain (execBegin db) .path_name e.path hp rp0
  have hplt : p < 2 ^ 32 := by
    obtain ⟨j, _, _, hj⟩ := hp1
    rw [hj]; exact mod_lt_uint j
  have k2 : d1.function_name = db.function_name := by
    have := hp4 .function_name (by decide)
    simp only [Database.names] at this
    rw [this, b2]
  obtain ⟨d3, f, tp, hst, g1, g2, g3, g4, g5, g6, g7, g8, g9, g10⟩ :=
    storeEntry_after_path db d1 e p h1 hplt k2 (by rw [hp5, b3]) (by rw [hp6, b4])
      (by rw [hp7, b5]) (by rw [hp8, b6]) hf hverb htype hline rf rt
  refine ⟨d3, p, f, tp, hst, g2, ?_, g3, g4, ?_, ?_, g5, g6, g7, g8, g9, g10⟩
  · rw [g1]
    exact hp1
  · intro hc
    rw [g1]
    have := hp2 (by simp only [Database.names]; rw [b1]; exact hc)
    simp only [Database.names] at this
    rw [b1] at this
    exact this
  · intro hc
    rw [g1]
    have := hp3 (by simp only [Database.names]; rw [b1]; exact hc)
    rw [this, b1]

theorem execInsertTraceEntry_plain (db : Database) (pid tid timestamp tp : Nat) (msg : QString)
    (hm : isPlain msg = true) (hpid : isSqlInteger pid = true) (htid : isSqlInteger tid = true)
    (htime : isSqlInteger timestamp = true) (htp : tp < 2 ^ 32)
    (re : db.trace_entry.hasRoom = true) :
    execInsertTraceEntry db pid tid timestamp tp msg =
      some { db with
        trace_entry := ⟨db.trace_entry.rows ++
          [⟨db.trace_entry.largestKey + 1, ⟨pid, tid, timestamp, tp, msg⟩⟩],
          db.trace_entry.largestKey + 1⟩,
        lastInsertRowid := db.trace_entry.largestKey + 1 } := by
  simp [execInsertTraceEntry, readEntryInsert_plain msg hm, hpid, htid, htime,
    isSqlInteger_of_lt tp htp, insert_of_hasRoom _ _ re]

/-- The whole of `storeEntry` on an entry whose path, function and message
are plain text and whose numbers are integers to SQL, in a store whose four
tables have room.  The call returns.  The path, the function and the trace
point (verbosity, type, path id, line, function id) are each looked up and
appended under the next key when absent, and the ids used are the keys of the
first rows that hold them, as `unsigned int`.  One `trace_entry` row is
appended under the next key, with the entry's pid, tid, timestamp and message
and the id of the trace point.  `variable_value` and `backtrace` are
unchanged and no transaction is left open. -/
theorem storeEntry_plain_tables (db : Database) (e : TraceEntry) (hp : isPlain e.path = true)
    (hf : isPlain e.function = true) (hm : isPlain e.message = true)
    (hpid : isSqlInteger e.pid = true) (htid : isSqlInteger e.tid = true)
    (htime : isSqlInteger e.timestamp = true) (hverb : isSqlInteger e.verbosity = true)
    (htype : isSqlInteger e.type = true) (hline : isSqlInteger e.lineno = true)
    (rp : db.path_name.hasRoom = true) (rf : db.function_name.hasRoom = true)
    (rt : db.trace_point.hasRoom = true) (re : db.trace_entry.hasRoom = true) :
    ∃ db1 p f tp, storeEntry db e = some db1 ∧
      db.trace_entry.insert ⟨e.pid, e.tid, e.timestamp, tp, e.message⟩ = some db1.trace_entry ∧
      (∃ j rest, db1.path_name.idsOf e.path = j :: rest ∧ p = j % 2 ^ 32) ∧
      (∃ j rest, db1.function_name.idsOf e.function = j :: rest ∧ f = j % 2 ^ 32) ∧
      (∃ j rest, db1.trace_point.idsOf ⟨e.verbosity, e.type, p, e.lineno, f⟩ = j :: rest ∧
        tp = j % 2 ^ 32) ∧
      (db.path_name.idsOf e.path = [] → db.path_name.insert e.path = some db1.path_name) ∧
      (db.path_name.idsOf e.path ≠ [] → db1.path_name = db.path_name) ∧
      (db.function_name.idsOf e.function = [] →
        db.function_name.insert e.function = some db1.function_name) ∧
      (db.function_name.idsOf e.function ≠ [] → db1.function_name = db.function_name) ∧
      (db.trace_point.idsOf ⟨e.verbosity, e.type, p, e.lineno, f⟩ = [] →
        db.trace_point.insert ⟨e.verbosity, e.type, p, e.lineno, f⟩ = some db1.trace_point) ∧
      (db.trace_point.idsOf ⟨e.verbosity, e.type, p, e.lineno, f⟩ ≠ [] →
        db1.trace_point = db.trace_point) ∧
      db1.variable_value = db.variable_value ∧ db1.backtrace = db.backtrace ∧
      db1.transaction = none := by
  obtain ⟨d3, p, f, tp, hst, g1, g2, g3, g4, g5, g6, g7, g8, g9, g10, g11, g12⟩ :=
    storeEntry_resolve_plain db e hp hf hverb htype hline rp rf rt
  have htlt : tp < 2 ^ 32 := by
    obtain ⟨j, _, _, hj⟩ := g4
    rw [hj]; exact mod_lt_uint j
  rw [execInsertTraceEntry_plain d3 e.pid e.tid e.timestamp tp e.message hm hpid htid htime htlt
    (by rw [g1]; exact re)] at hst
  refine ⟨_, p, f, tp, hst, ?_, g2, g3, g4, g5, g6, g7, g8, g9, g10, g11, g12, rfl⟩
  simp only [execCommit, g1]
  exact insert_of_hasRoom _ _ re

theorem rows_prefix_of_cases {γ : Type} [DecidableEq γ] (t t1 : Table γ) (c : γ)
    (hnew : t.idsOf c = [] → t.insert c = some t1) (hold : t.idsOf c ≠ [] → t1 = t) :
    ∃ l, t1.rows = t.rows ++ l := by
  by_cases hc : t.idsOf c = []
  · rw [(rows_of_insert _ _ _ (hnew hc)).1]
    exact ⟨_, rfl⟩
  · rw [hold hc]
    exact ⟨[], by simp⟩

/-- On an entry whose path, function and message are plain text and whose
numbers are integers to SQL, in a store whose four tables have room,
`storeEntry` returns; it appends exactly one `trace_entry` row, which carries
the entry's pid, tid, timestamp and message under the next key; both names
are in their tables afterwards; the rows that `path_name`, `function_name`
and `trace_point` had are still there, in place and unchanged, with at most
new rows after them; `variable_value` and `backtrace` are unchanged. -/
theorem storeEntry_plain (db : Database) (e : TraceEntry) (hp : isPlain e.path = true)
    (hf : isPlain e.function = true) (hm : isPlain e.message = true)
    (hpid : isSqlInteger e.pid = true) (htid : isSqlInteger e.tid = true)
    (htime : isSqlInteger e.timestamp = true) (hverb : isSqlInteger e.verbosity = true)
    (htype : isSqlInteger e.type = true) (hline : isSqlInteger e.lineno = true)
    (rp : db.path_name.hasRoom = true) (rf : db.function_name.hasRoom = true)
    (rt : db.trace_point.hasRoom = true) (re : db.trace_entry.hasRoom = true) :
    ∃ db1 tpid, storeEntry db e = some db1 ∧
      db1.trace_entry.rows = db.trace_entry.rows ++
        [⟨db.trace_entry.largestKey + 1, ⟨e.pid, e.tid, e.timestamp, tpid, e.message⟩⟩] ∧
      db1.path_name.idsOf e.path ≠ [] ∧ db1.function_name.idsOf e.function ≠ [] ∧
      (∃ l, db1.path_name.rows = db.path_name.rows ++ l) ∧
      (∃ l, db1.function_name.rows = db.function_name.rows ++ l) ∧
      (∃ l, db1.trace_point.rows = db.trace_point.rows ++ l) ∧
      db1.variable_value = db.variable_value ∧ db1.backtrace = db.backtrace := by
  obtain ⟨db1, p, f, tp, hst, g1, ⟨jp, rp1, g2, _⟩, ⟨jf, rf1, g3, _⟩, _, g5, g6, g7, g8, g9, g10,
    g11, g12, _⟩ :=
    storeEntry_plain_tables db e hp hf hm hpid htid htime hverb htype hline rp rf rt re
  refine ⟨db1, tp, hst, ?_, ?_, ?_, rows_prefix_of_cases _ _ _ g5 g6,
    rows_prefix_of_cases _ _ _ g7 g8, rows_prefix_of_cases _ _ _ g9 g10, g11, g12⟩
  · rw [(rows_of_insert _ _ _ g1).1]
  · rw [g2]; simp
  · rw [g3]; simp

/-! ## Number conversions -/

theorem parseDigits_numeral (s : QString) (acc : Nat) (h : s.all isDigitChar = true) :
    parseDigits acc s = some (acc * 10 ^ s.length + numeralValue s) := by
  induction s generalizing acc with
  | nil => simp [parseDigits, numeralValue]
  | cons c cs ih =>
    have hc : isDigitChar c = true := by
      have := List.all_eq_true.mp h c (List.mem_cons_self _ _)
      exact this
    have hcs : cs.all isDigitChar = true := by
      apply List.all_eq_true.mpr
      intro x hx
      exact List.all_eq_true.mp h x (List.mem_cons_of_mem _ hx)
    rw [parseDigits, if_pos hc, ih _ hcs]
    have hv : numeralValue (c :: cs) = numeralValue cs + 10 ^ cs.length * (c.toNat - 48) := by
      simp [numeralValue, Nat.ofDigits_append]
    rw [hv]
    simp only [List.length_cons, pow_succ]
    congr 1
    ring

theorem dropWhile_none {α : Type} (p : α → Bool) (l : List α) (h : ∀ x ∈ l, p x = false) :
    l.dropWhile p = l := by
  cases l with
  | nil => rfl
  | cons a as => simp [List.dropWhile, h a (List.mem_cons_self _ _)]

theorem isSpace_of_digit (c : Char) (h : isDigitChar c = true) : isSpace c = false := by
  simp only [isDigitChar, Bool.and_eq_true, decide_eq_true_eq] at h
  simp only [isSpace, Bool.or_eq_false_iff, Bool.and_eq_false_iff, decide_eq_false_iff_not]
  omega

theorem trimmed_numeral (s : QString) (h : s.all isDigitChar = true) : trimmed s = s := by
  have hsp : ∀ x ∈ s, isSpace x = false :=
    fun x hx => isSpace_of_digit x (List.all_eq_true.mp h x hx)
  unfold trimmed
  rw [dropWhile_none isSpace s hsp,
    dropWhile_none isSpace s.reverse (fun x hx => hsp x (List.mem_reverse.mp hx)),
    List.reverse_reverse]

/-- On a decimal numeral below 2^64 the conversion `toULongLong` gives the
number the numeral denotes. -/
theorem toULongLong_numeral (s : QString) (h : isNumeral s = true)
    (hv : numeralValue s < 2 ^ 64) : QString.toULongLong s = numeralValue s := by
  simp only [isNumeral, Bool.and_eq_true, Bool.not_eq_true', List.isEmpty_eq_false] at h
  obtain ⟨hne, hall⟩ := h
  cases s with
  | nil => exact absurd rfl hne
  | cons c cs =>
    have hc : isDigitChar c = true := List.all_eq_true.mp hall c (List.mem_cons_self _ _)
    have hplus : c ≠ Char.ofNat 43 := by
      intro hcp
      rw [hcp] at hc
      exact absurd hc (by decide)
    have hp := parseDigits_numeral (c :: cs) 0 hall
    simp only [Nat.zero_mul, Nat.zero_add] at hp
    unfold QString.toULongLong
    rw [trimmed_numeral (c :: cs) hall]
    simp only [if_neg hplus, hp, if_pos hv]

theorem toUInt_numeral (s : QString) (h : isNumeral s = true)
    (hv : numeralValue s ≤ 4294967295) : QString.toUInt s = numeralValue s := by
  unfold QString.toUInt
  rw [toULongLong_numeral s h (by omega)]
  simp only [gt_iff_lt, if_neg (Nat.not_lt.mpr hv)]

theorem toULong_numeral (ulongMax : Nat) (s : QString) (h : isNumeral s = true)
    (hmax : ulongMax < 2 ^ 64) (hv : numeralValue s ≤ ulongMax) :
    QString.toULong ulongMax s = numeralValue s := by
  unfold QString.toULong
  rw [toULongLong_numeral s h (by omega)]
  simp only [gt_iff_lt, if_neg (Nat.not_lt.mpr hv)]

theorem toUInt_lt (s : QString) : QString.toUInt s < 2 ^ 32 := by
  unfold QString.toUInt
  simp only []
  split
  · decide
  · omega

/-! ## Entries whose text holds a quote -/

/-- C1, at the path `o'brien.cpp` on the empty store: the select and the
insert on `path_name` are not SQL, so no row is created, `pathId` is read as 0
from an invalid value, and the call carries on with it. -/
theorem C1_quoted_path_not_created :
    resolveNameId Database.empty .path_name "o'brien.cpp".toList = some (Database.empty, 0) ∧
    (storeEntry Database.empty { sampleEntry with path := "o'brien.cpp".toList }).map
      (fun d => (d.path_name.rows, d.trace_point.rows.map (fun r => r.cols.path_id)))
      = some ([], [0]) := by
  decide

/-- C2, at two entries that differ only in message, the first with message
`it's`, on the empty store: the first call adds the trace point and no
`trace_entry` row, so both calls together add one `trace_entry` row. -/
theorem C2_quoted_message_one_row :
    (storeEntry Database.empty { sampleEntry with message := "it's".toList }).map
      (fun d => (d.trace_point.rows.length, d.trace_entry.rows.length)) = some (1, 0) ∧
    (storeEntries Database.empty
      [{ sampleEntry with message := "it's".toList }, sampleEntry]).map
      (fun d => (d.trace_point.rows.length, d.trace_entry.rows.length)) = some (1, 1) := by
  decide

/-- C3, at two entries with the same path `o'brien.cpp` on the empty store:
after both calls `path_name` holds no row at all, and both trace entries
point at a trace point whose `path_id` is 0. -/
theorem C3_quoted_path_no_row :
    (storeEntries Database.empty
      [{ sampleEntry with path := "o'brien.cpp".toList },
       { sampleEntry with path := "o'brien.cpp".toList, message := "world".toList }]).map
      (fun d => (d.path_name.rows, d.trace_point.rows.map (fun r => r.cols.path_id),
                 d.trace_entry.rows.map (fun r => r.cols.tracepoint_id)))
      = some ([], [0], [1, 1]) := by
  decide

/-- C4, at N = 2 with the messages `hello` and `can't open file`: after both
calls `trace_entry` holds one row. -/
theorem C4_quoted_message_not_appended :
    (storeEntries Database.empty
      [sampleEntry, { sampleEntry with message := "can't open file".toList }]).map
      (fun d => d.trace_entry.rows.map (fun r => r.cols.message))
      = some ["hello".toList] := by
  decide

/-- C9, at the path `a''b` and at the message `it's` on the empty store: the
path is read as SQL text, so the row that is created is named `a'b`, and the
insert into `trace_entry` is not SQL, so no row carries the message. -/
theorem C9_values_read_as_query_text :
    (storeEntry Database.empty { sampleEntry with path := "a''b".toList }).map
      (fun d => d.path_name.rows.map (fun r => r.cols)) = some ["a'b".toList] ∧
    (storeEntry Database.empty { sampleEntry with message := "it's".toList }).map
      (fun d => d.trace_entry.rows) = some [] := by
  decide

/-! ## The deserializer -/

theorem attributeValue_missing (e : QDomElement) (name : QString)
    (h : hasAttribute e name = false) : attributeValue e name = [] := by
  cases e with
  | none => rfl
  | some n =>
    simp only [hasAttribute, List.any_eq_false, decide_eq_true_eq] at h
    have hfind : n.attributeList.find? (fun a => decide (a.1 = name)) = none := by
      rw [List.find?_eq_none]
      intro a ha
      simpa using h a ha
    simp [attributeValue, hfind]

theorem namedItem_missing (e : QDomElement) (name : QString)
    (h : hasChildElement e name = false) : namedItem e name = none := by
  cases e with
  | none => rfl
  | some n =>
    simp only [hasChildElement, List.any_eq_false] at h
    cases hfind : n.childNodes.find? (fun c => decide (c.nodeName = name)) with
    | none => simp only [namedItem, hfind]
    | some c =>
      have hmem : c ∈ n.childNodes := List.mem_of_find?_eq_some hfind
      have hname : c.nodeName = name := by
        simpa using List.find?_some hfind
      have hnot := h c hmem
      cases c with
      | element tag as cs =>
        simp only [QDomNode.nodeName] at hname
        simp [QDomNode.isElementNamed, hname] at hnot
      | characterData d => simp only [namedItem, hfind, QDomNode.toElement]
      | misc m => simp only [namedItem, hfind, QDomNode.toElement]

/-- C5, at the document `<t/>`, which is well formed and has none of the nine
fields: `deserializeTraceEntry` returns an entry, all of whose numbers are 0
and all of whose texts are empty, and `handleIncomingData` goes on with that
entry and publishes it. -/
theorem C5_missing_fields_deserialized :
    deserializeTraceEntry 18446744073709551615 (some (.element "t".toList [] []))
      = ⟨0, 0, 0, 0, 0, [], 0, [], []⟩ ∧
    (handleIncomingData readerOfOneDocument 18446744073709551615 Database.empty
        [60, 116, 47, 62]).2
      = some ⟨0, 0, 0, 0, 0, [], 0, [], []⟩ := by
  decide

/-- C5 as amended: `deserializeTraceEntry` has no failure result.  A root
attribute that is missing gives the number 0, a child element that is missing
gives the number 0 or the empty text, and a `location` without `lineno` gives
line 0. -/
theorem C5_missing_field_defaults (ulongMax : Nat) (root : QDomElement) :
    (hasAttribute root "pid".toList = false → (deserializeTraceEntry ulongMax root).pid = 0) ∧
    (hasAttribute root "tid".toList = false → (deserializeTraceEntry ulongMax root).tid = 0) ∧
    (hasAttribute root "time".toList = false →
      (deserializeTraceEntry ulongMax root).timestamp = 0) ∧
    (hasChildElement root "verbosity".toList = false →
      (deserializeTraceEntry ulongMax root).verbosity = 0) ∧
    (hasChildElement root "type".toList = false →
      (deserializeTraceEntry ulongMax root).type = 0) ∧
    (hasChildElement root "location".toList = false →
      (deserializeTraceEntry ulongMax root).path = [] ∧
      (deserializeTraceEntry ulongMax root).lineno = 0) ∧
    (hasAttribute (namedItem root "location".toList) "lineno".toList = false →
      (deserializeTraceEntry ulongMax root).lineno = 0) ∧
    (hasChildElement root "function".toList = false →
      (deserializeTraceEntry ulongMax root).function = []) ∧
    (hasChildElement root "message".toList = false →
      (deserializeTraceEntry ulongMax root).message = []) := by
  have hz : QString.toUInt [] = 0 := by decide
  have hl : QString.toULong ulongMax [] = 0 := by
    simp [QString.toULong, QString.toULongLong, trimmed]
  refine ⟨?_, ?_, ?_, ?_, ?_, ?_, ?_, ?_, ?_⟩
  · intro h; simp only [deserializeTraceEntry, attributeValue_missing _ _ h, hz]
  · intro h; simp only [deserializeTraceEntry, attributeValue_missing _ _ h, hz]
  · intro h; simp only [deserializeTraceEntry, attributeValue_missing _ _ h, hl]
  · intro h; simp only [deserializeTraceEntry, namedItem_missing _ _ h, text, hz]
  · intro h; simp only [deserializeTraceEntry, namedItem_missing _ _ h, text, hz]
  · intro h
    simp only [deserializeTraceEntry, namedItem_missing _ _ h, text, attributeValue, hl]
    exact ⟨trivial, trivial⟩
  · intro h; simp only [deserializeTraceEntry, attributeValue_missing _ _ h, hl]
  · intro h; simp only [deserializeTraceEntry, namedItem_missing _ _ h, text]
  · intro h; simp only [deserializeTraceEntry, namedItem_missing _ _ h, text]

/-- C5 as amended, at a document that has every field except `pid` and the
child `message`. -/
theorem C5_missing_field_defaults_witness :
    (deserializeTraceEntry 4294967295 (some (.element "traceentry".toList
        [("tid".toList, "5".toList), ("time".toList, "123456".toList)]
        [.element "verbosity".toList [] [.characterData "2".toList],
         .element "type".toList [] [.characterData "0".toList],
         .element "location".toList [("lineno".toList, "42".toList)]
           [.characterData "/a/b.cpp".toList],
         .element "function".toList [] [.characterData "foo".toList]]))).pid = 0 ∧
    (deserializeTraceEntry 4294967295 (some (.element "traceentry".toList
        [("tid".toList, "5".toList), ("time".toList, "123456".toList)]
        [.element "verbosity".toList [] [.characterData "2".toList],
         .element "type".toList [] [.characterData "0".toList],
         .element "location".toList [("lineno".toList, "42".toList)]
           [.characterData "/a/b.cpp".toList],
         .element "function".toList [] [.characterData "foo".toList]]))).message = [] :=
  ⟨(C5_missing_field_defaults 4294967295 _).1 (by decide),
   (C5_missing_field_defaults 4294967295 _).2.2.2.2.2.2.2.2 (by decide)⟩

/-- C6: when the root attributes `pid`, `tid`, `time`, the texts of the
children `verbosity` and `type`, and the attribute `lineno` of the child
`location` are decimal numerals that fit their field (`unsigned int`, and
`unsigned long` for `time` and `lineno`), `deserializeTraceEntry` returns the
entry made of the numbers these numerals denote and of the texts of the
children `location`, `function` and `message`. -/
theorem C6_deserializeTraceEntry_fields (ulongMax : Nat) (root : QDomElement)
    (hmax : ulongMax < 2 ^ 64)
    (hpid : isNumeral (attributeValue root "pid".toList) = true)
    (hpidv : numeralValue (attributeValue root "pid".toList) ≤ 4294967295)
    (htid : isNumeral (attributeValue root "tid".toList) = true)
    (htidv : numeralValue (attributeValue root "tid".toList) ≤ 4294967295)
    (htime : isNumeral (attributeValue root "time".toList) = true)
    (htimev : numeralValue (attributeValue root "time".toList) ≤ ulongMax)
    (hverb : isNumeral (text (namedItem root "verbosity".toList)) = true)
    (hverbv : numeralValue (text (namedItem root "verbosity".toList)) ≤ 4294967295)
    (htype : isNumeral (text (namedItem root "type".toList)) = true)
    (htypev : numeralValue (text (namedItem root "type".toList)) ≤ 4294967295)
    (hline : isNumeral (attributeValue (namedItem root "location".toList) "lineno".toList) = true)
    (hlinev : numeralValue (attributeValue (namedItem root "location".toList) "lineno".toList)
      ≤ ulongMax) :
    deserializeTraceEntry ulongMax root =
      { pid := numeralValue (attributeValue root "pid".toList)
        tid := numeralValue (attributeValue root "tid".toList)
        timestamp := numeralValue (attributeValue root "time".toList)
        verbosity := numeralValue (text (namedItem root "verbosity".toList))
        type := numeralValue (text (namedItem root "type".toList))
        path := text (namedItem root "location".toList)
        lineno := numeralValue (attributeValue (namedItem root "location".toList) "lineno".toList)
        function := text (namedItem root "function".toList)
        message := text (namedItem root "message".toList) } := by
  unfold deserializeTraceEntry
  rw [toUInt_numeral _ hpid hpidv, toUInt_numeral _ htid htidv,
    toULong_numeral ulongMax _ htime hmax htimev, toUInt_numeral _ hverb hverbv,
    toUInt_numeral _ htype htypev, toULong_numeral ulongMax _ hline hmax hlinev]

/-- C6 at the document of the end-to-end example: its nine fields are read
as the entry of that example. -/
theorem C6_deserializeTraceEntry_fields_witness :
    deserializeTraceEntry 4294967295 sampleDocument = sampleEntry := by
  have h := C6_deserializeTraceEntry_fields 4294967295 sampleDocument (by decide)
    (by decide) (by decide) (by decide) (by decide) (by decide) (by decide)
    (by decide) (by decide) (by decide) (by decide) (by decide) (by decide)
  rw [h]
  decide

/-! ## The handler -/

/-- C7 fails on the code at the message `<t/>`, which is well formed and
invalid (it has none of the nine fields): on the empty store
`handleIncomingData` adds a row to `path_name`, `function_name`,
`trace_point` and `trace_entry` and publishes an entry. -/
theorem C7_invalid_message_stored :
    (handleIncomingData readerOfOneDocument 4294967295 Database.empty [60, 116, 47, 62]).1.map
      (fun d => (d.path_name.rows.length, d.function_name.rows.length,
                 d.trace_point.rows.length, d.trace_entry.rows.length))
      = some (1, 1, 1, 1) ∧
    (handleIncomingData readerOfOneDocument 4294967295 Database.empty [60, 116, 47, 62]).2
      ≠ none := by
  decide

/-- C7 as amended: `handleIncomingData` discards exactly the bytes that the
XML reader rejects.  When the reader rejects them, the store is the one
before the call, so that the next read is handled from it, and nothing is
published.  When the reader accepts them, the entry that
`deserializeTraceEntry` makes of the document element is published and handed
to `storeEntry`, whatever fields the document has; and when the texts of that
entry are plain, its timestamp and line are integers to SQL and the four
tables have room, it is stored as one new `trace_entry` row. -/
theorem C7_only_reader_rejects (setContent : QByteArray → Option QDomElement) (ulongMax : Nat)
    (db : Database) (xmlData : QByteArray) :
    (setContent xmlData = none →
      handleIncomingData setContent ulongMax db xmlData = (some db, none)) ∧
    (∀ root, setContent xmlData = some root →
      (handleIncomingData setContent ulongMax db xmlData).2
        = some (deserializeTraceEntry ulongMax root) ∧
      (handleIncomingData setContent ulongMax db xmlData).1
        = storeEntry db (deserializeTraceEntry ulongMax root) ∧
      (isPlain (deserializeTraceEntry ulongMax root).path = true →
        isPlain (deserializeTraceEntry ulongMax root).function = true →
        isPlain (deserializeTraceEntry ulongMax root).message = true →
        isSqlInteger (deserializeTraceEntry ulongMax root).timestamp = true →
        isSqlInteger (deserializeTraceEntry ulongMax root).lineno = true →
        db.path_name.hasRoom = true → db.function_name.hasRoom = true →
        db.trace_point.hasRoom = true → db.trace_entry.hasRoom = true →
        ∃ db1 tpid, (handleIncomingData setContent ulongMax db xmlData).1 = some db1 ∧
          db1.trace_entry.rows = db.trace_entry.rows ++
            [⟨db.trace_entry.largestKey + 1,
              ⟨(deserializeTraceEntry ulongMax root).pid,
               (deserializeTraceEntry ulongMax root).tid,
               (deserializeTraceEntry ulongMax root).timestamp, tpid,
               (deserializeTraceEntry ulongMax root).message⟩⟩])) := by
  constructor
  · intro h
    simp only [handleIncomingData, h]
  · intro root h
    have hh : handleIncomingData setContent ulongMax db xmlData =
        (storeEntry db (deserializeTraceEntry ulongMax root),
          some (deserializeTraceEntry ulongMax root)) := by
      simp only [handleIncomingData, h]
    refine ⟨by rw [hh], by rw [hh], ?_⟩
    intro hp hf hm htime hline rp rf rt re
    obtain ⟨db1, tpid, hst, hrows, _⟩ :=
      storeEntry_plain db (deserializeTraceEntry ulongMax root) hp hf hm
        (isSqlInteger_of_lt _ (toUInt_lt _)) (isSqlInteger_of_lt _ (toUInt_lt _)) htime
        (isSqlInteger_of_lt _ (toUInt_lt _)) (isSqlInteger_of_lt _ (toUInt_lt _)) hline
        rp rf rt re
    exact ⟨db1, tpid, by rw [hh]; exact hst, hrows⟩

/-- C7 as amended, at a reader that accepts the document `<t/>` only, on the
empty store: the two bytes of the truncated text `<t` are discarded, and the
message `<t/>` is published and stored as one new row. -/
theorem C7_only_reader_rejects_witness :
    handleIncomingData readerOfOneDocument 4294967295 Database.empty [60, 116]
      = (some Database.empty, none) ∧
    ∃ db1 tpid,
      (handleIncomingData readerOfOneDocument 4294967295 Database.empty [60, 116, 47, 62]).1
        = some db1 ∧
      db1.trace_entry.rows = Database.empty.trace_entry.rows ++
        [⟨Database.empty.trace_entry.largestKey + 1,
          ⟨(deserializeTraceEntry 4294967295 (some (.element "t".toList [] []))).pid,
           (deserializeTraceEntry 4294967295 (some (.element "t".toList [] []))).tid,
           (deserializeTraceEntry 4294967295 (some (.element "t".toList [] []))).timestamp, tpid,
           (deserializeTraceEntry 4294967295 (some (.element "t".toList [] []))).message⟩⟩] :=
  ⟨(C7_only_reader_rejects readerOfOneDocument 4294967295 Database.empty [60, 116]).1 rfl,
   ((C7_only_reader_rejects readerOfOneDocument 4294967295 Database.empty
      [60, 116, 47, 62]).2 (some (.element "t".toList [] [])) rfl).2.2
      (by decide) (by decide) (by decide) (by decide) (by decide) (by decide) (by decide)
      (by decide) (by decide)⟩

/-! ## One read, one document -/

/-- C10 fails on the code, at a reader that accepts the document `<t/>` only,
on the empty store.  A prefix is not kept: reading `<t` and then `/>` stores
nothing and publishes nothing, while reading `<t/>` at once stores an entry.
Two messages in one read are not split: reading `<t/><t/>` stores nothing and
publishes nothing, where the claim wants two entries. -/
theorem C10_no_framing :
    handleIncomingData readerOfOneDocument 4294967295 Database.empty [60, 116]
      = (some Database.empty, none) ∧
    handleIncomingData readerOfOneDocument 4294967295 Database.empty [47, 62]
      = (some Database.empty, none) ∧
    (handleIncomingData readerOfOneDocument 4294967295 Database.empty [60, 116, 47, 62]).1.map
        (fun d => d.trace_entry.rows.length) = some 1 ∧
    handleIncomingData readerOfOneDocument 4294967295 Database.empty
        [60, 116, 47, 62, 60, 116, 47, 62] = (some Database.empty, none) := by
  decide

/-- C10 as amended: `handleIncomingData` takes the bytes of one read as one
document and keeps nothing from one read to the next.  Bytes that the reader
rejects leave the store as it was and publish nothing; when the bytes of the
following read are rejected as well, the store is still the one before the
two reads.  Bytes that the reader accepts give one document element, which is
deserialized into one entry, handed to one call of `storeEntry` and
published. -/
theorem C10_one_read_one_document (setContent : QByteArray → Option QDomElement)
    (ulongMax : Nat) (db : Database) (xmlData rest : QByteArray) :
    (setContent xmlData = none →
      handleIncomingData setContent ulongMax db xmlData = (some db, none)) ∧
    (setContent xmlData = none → setContent rest = none →
      (handleIncomingData setContent ulongMax db xmlData).1.map
          (fun d => handleIncomingData setContent ulongMax d rest)
        = some (some db, none)) ∧
    (∀ root, setContent xmlData = some root →
      handleIncomingData setContent ulongMax db xmlData =
        (storeEntry db (deserializeTraceEntry ulongMax root),
          some (deserializeTraceEntry ulongMax root))) := by
  refine ⟨?_, ?_, ?_⟩
  · intro h
    simp only [handleIncomingData, h]
  · intro h1 h2
    simp only [handleIncomingData, h1, h2, Option.map_some']
  · intro root h
    simp only [handleIncomingData, h]

/-- C10 as amended, at the reader that accepts `<t/>` only, on the empty
store: the two messages `<t/><t/>` in one read are rejected, the halves `<t`
and `/>` read one after the other are both rejected, and the single message
`<t/>` goes to one call of `storeEntry`. -/
theorem C10_one_read_one_document_witness :
    handleIncomingData readerOfOneDocument 4294967295 Database.empty
        [60, 116, 47, 62, 60, 116, 47, 62] = (some Database.empty, none) ∧
    (handleIncomingData readerOfOneDocument 4294967295 Database.empty [60, 116]).1.map
        (fun d => handleIncomingData readerOfOneDocument 4294967295 d [47, 62])
      = some (some Database.empty, none) ∧
    handleIncomingData readerOfOneDocument 4294967295 Database.empty [60, 116, 47, 62] =
      (storeEntry Database.empty
          (deserializeTraceEntry 4294967295 (some (.element "t".toList [] []))),
        some (deserializeTraceEntry 4294967295 (some (.element "t".toList [] [])))) :=
  ⟨(C10_one_read_one_document readerOfOneDocument 4294967295 Database.empty
      [60, 116, 47, 62, 60, 116, 47, 62] []).1 rfl,
   (C10_one_read_one_document readerOfOneDocument 4294967295 Database.empty
      [60, 116] [47, 62]).2.1 rfl rfl,
   (C10_one_read_one_document readerOfOneDocument 4294967295 Database.empty
      [60, 116, 47, 62] []).2.2 _ rfl⟩

/-! ## No rollback -/

/-- C8 fails on the code, on the empty store.  With the message `it's` the
insert into `trace_entry` fails, yet the rows added to `path_name`,
`function_name` and `trace_point` stay.  With the path `o'brien.cpp` the
statements on `path_name` fail, yet a `trace_entry` row is inserted, and its
trace point has the `path_id` 0, which is the id of no row. -/
theorem C8_failure_not_rolled_back :
    readSpliced "it's".toList valuesEnd = .syntaxError ∧
    (storeEntry Database.empty { sampleEntry with message := "it's".toList }).map
      (fun d => (d.path_name.rows.length, d.function_name.rows.length,
                 d.trace_point.rows.length, d.trace_entry.rows.length))
      = some (1, 1, 1, 0) ∧
    readSpliced "o'brien.cpp".toList selectEnd = .syntaxError ∧
    readSpliced "o'brien.cpp".toList valuesEnd = .syntaxError ∧
    (storeEntry Database.empty { sampleEntry with path := "o'brien.cpp".toList }).map
      (fun d => (d.path_name.rows.length, d.trace_point.rows.map (fun r => (r.id, r.cols.path_id)),
                 d.trace_entry.rows.map (fun r => r.cols.tracepoint_id)))
      = some (0, [(1, 0)], [1]) := by
  decide

/-- C8 as amended: `storeEntry` is not atomic on a statement that cannot be
prepared: it goes on with the statements that follow, and what the others
have done is in the store after the call.  Let verbosity, type and line be integers to SQL and let
`function_name` and `trace_point` have room.  (a) When path and function are
plain text, `path_name` has room, and the text of the insert into
`trace_entry` ends inside a string literal, the call returns with
`trace_entry` unchanged and with the path and the function in their tables; a
path that was new has been appended to `path_name`.  (b) When the text of
both statements on `path_name` ends inside a string literal, function and
message are plain text, pid, tid and timestamp are integers to SQL and
`trace_entry` has room, the call returns with `path_name` unchanged and with
one new `trace_entry` row. -/
theorem C8_no_rollback (db : Database) (e : TraceEntry)
    (hverb : isSqlInteger e.verbosity = true) (htype : isSqlInteger e.type = true)
    (hline : isSqlInteger e.lineno = true) (rf : db.function_name.hasRoom = true)
    (rt : db.trace_point.hasRoom = true) :
    (isPlain e.path = true → isPlain e.function = true →
      readSpliced e.message valuesEnd = .syntaxError → db.path_name.hasRoom = true →
      ∃ db1, storeEntry db e = some db1 ∧ db1.trace_entry = db.trace_entry ∧
        db1.path_name.idsOf e.path ≠ [] ∧ db1.function_name.idsOf e.function ≠ [] ∧
        (db.path_name.idsOf e.path = [] → db.path_name.insert e.path = some db1.path_name)) ∧
    (readSpliced e.path selectEnd = .syntaxError → readSpliced e.path valuesEnd = .syntaxError →
      isPlain e.function = true → isPlain e.message = true →
      isSqlInteger e.pid = true → isSqlInteger e.tid = true →
      isSqlInteger e.timestamp = true → db.trace_entry.hasRoom = true →
      ∃ db1 tpid, storeEntry db e = some db1 ∧ db1.path_name = db.path_name ∧
        db1.trace_entry.rows = db.trace_entry.rows ++
          [⟨db.trace_entry.largestKey + 1, ⟨e.pid, e.tid, e.timestamp, tpid, e.message⟩⟩]) := by
  constructor
  · intro hp hf hm rp
    obtain ⟨d3, p, f, tp, hst, g1, ⟨jp, rp1, g2, _⟩, ⟨jf, rf1, g3, _⟩, _, g5, _⟩ :=
      storeEntry_resolve_plain db e hp hf hverb htype hline rp rf rt
    have hins : execInsertTraceEntry d3 e.pid e.tid e.timestamp tp e.message = some d3 := by
      simp [execInsertTraceEntry, readEntryInsert_syntaxError e.message hm]
    rw [hins] at hst
    refine ⟨execCommit d3, hst, g1, ?_, ?_, g5⟩
    · show d3.path_name.idsOf e.path ≠ []
      rw [g2]; simp
    · show d3.function_name.idsOf e.function ≠ []
      rw [g3]; simp
  · intro hs hi hf hm hpid htid htime re
    obtain ⟨b1, b2, b3, b4, b5, b6⟩ := execBegin_tables db
    have h1 := resolveNameId_syntaxError (execBegin db) .path_name e.path hs hi
    obtain ⟨d3, f, tp, hst, g1, g2, _, ⟨jt, _, _, hjt⟩, _⟩ :=
      storeEntry_after_path db (execBegin db) e _ h1 (valueToUInt_lt _) b2 b3 b4 b5 b6 hf hverb
        htype hline rf rt
    have htlt : tp < 2 ^ 32 := by rw [hjt]; exact mod_lt_uint jt
    rw [execInsertTraceEntry_plain d3 e.pid e.tid e.timestamp tp e.message hm hpid htid htime htlt
      (by rw [g2]; exact re)] at hst
    refine ⟨_, tp, hst, ?_, ?_⟩
    · show d3.path_name = db.path_name
      rw [g1, b1]
    · simp only [execCommit, g2]

/-- C8 as amended, on the empty store with the message `it's` and with the
path `o'brien.cpp`. -/
theorem C8_no_rollback_witness :
    (∃ db1, storeEntry Database.empty { sampleEntry with message := "it's".toList } = some db1 ∧
        db1.trace_entry = Database.empty.trace_entry ∧
        db1.path_name.idsOf "/a/b.cpp".toList ≠ [] ∧
        db1.function_name.idsOf "foo".toList ≠ [] ∧
        Database.empty.path_name.insert "/a/b.cpp".toList = some db1.path_name) ∧
    (∃ db1 tpid, storeEntry Database.empty { sampleEntry with path := "o'brien.cpp".toList }
          = some db1 ∧
        db1.path_name = Database.empty.path_name ∧
        db1.trace_entry.rows = Database.empty.trace_entry.rows ++
          [⟨Database.empty.trace_entry.largestKey + 1,
            ⟨100, 5, 123456, tpid, "hello".toList⟩⟩]) := by
  refine ⟨?_, ?_⟩
  · obtain ⟨db1, h1, h2, h3, h4, h5⟩ :=
      (C8_no_rollback Database.empty { sampleEntry with message := "it's".toList }
        (by decide) (by decide) (by decide) (by decide) (by decide)).1
        (by decide) (by decide) (by decide) (by decide)
    exact ⟨db1, h1, h2, h3, h4, h5 (by decide)⟩
  · exact (C8_no_rollback Database.empty { sampleEntry with path := "o'brien.cpp".toList }
      (by decide) (by decide) (by decide) (by decide) (by decide)).2
      (by decide) (by decide) (by decide) (by decide) (by decide) (by decide) (by decide)
      (by decide)

/-! ## A message that rewrites a row -/

/-- C11 fails on the code, on the store of the end-to-end example, whose one
`trace_entry` row has the key 1 and the message `hello`.  The message
`m'),(1,0,0,0,0,'z') ON CONFLICT(id) DO UPDATE SET message=('hacked` closes
the string literal of the insert into `trace_entry` and goes on with a second
row under the key 1 and an upsert clause: after the call the row with the key
1 has the message `hacked`. -/
theorem C11_message_rewrites_row :
    sampleStore.trace_entry.rows.map (fun r => (r.id, r.cols.message))
      = [(1, "hello".toList)] ∧
    (storeEntry sampleStore
        { sampleEntry with
          message := "m'),(1,0,0,0,0,'z') ON CONFLICT(id) DO UPDATE SET message=('hacked".toList }
      ).map (fun d => d.trace_entry.rows.map (fun r => (r.id, r.cols.message)))
      = some [(1, "hacked".toList), (2, "m".toList)] := by
  decide

/-! ## The same new path from two executions -/

/-- C12 fails on the code.  `storeEntry` runs to completion inside a slot of
the one `Server` object, so two executions can only follow one another, in
one of two orders.  On the store of the end-to-end example, take two entries
with the path `o'brien.cpp`, which `path_name` does not hold, one with the
function `foo` and one with the function `bar`.  In either order the store
afterwards holds no `path_name` row with that name, and the two executions
resolve different path ids: the first reads 1 and the second reads 2, both
left over from earlier inserts, as the `path_id` of the trace points
shows. -/
theorem C12_same_quoted_path_two_ids :
    sampleStore.path_name.idsOf "o'brien.cpp".toList = [] ∧
    (storeEntries sampleStore
        [{ sampleEntry with path := "o'brien.cpp".toList },
         { sampleEntry with path := "o'brien.cpp".toList, function := "bar".toList }]).map
      (fun d => (d.path_name.rows.map (fun r => r.cols),
                 d.trace_point.rows.map (fun r => (r.id, r.cols.path_id)),
                 d.trace_entry.rows.map (fun r => (r.id, r.cols.tracepoint_id))))
      = some (["/a/b.cpp".toList], [(1, 1), (2, 2)], [(1, 1), (2, 1), (3, 2)]) ∧
    (storeEntries sampleStore
        [{ sampleEntry with path := "o'brien.cpp".toList, function := "bar".toList },
         { sampleEntry with path := "o'brien.cpp".toList }]).map
      (fun d => (d.path_name.rows.map (fun r => r.cols),
                 d.trace_point.rows.map (fun r => (r.id, r.cols.path_id)),
                 d.trace_entry.rows.map (fun r => (r.id, r.cols.tracepoint_id))))
      = some (["/a/b.cpp".toList], [(1, 1), (2, 1), (3, 2)], [(1, 1), (2, 2), (3, 3)]) := by
  refine ⟨by decide, by decide, by decide⟩

/-! ## Filters written and read back -/

/-- Every matching mode is read back from its name, with `*bOk` set. -/
theorem stringToMode_modeToString (m : MatchingMode) :
    stringToMode (modeToString m) = (m, true) := by
  cases m <;> decide

/-- A path filter is read back as it was saved, without error. -/
theorem readFilterElement_saveFilter_path (m : MatchingMode) (term : QString) :
    readFilterElement (saveFilter ⟨.PathFilter, m, term⟩)
      = (some ⟨.PathFilter, m, term⟩, false) := by
  cases m <;> simp [readFilterElement, saveFilter, readPathFilter, parseMatchingMode,
    XmlElement.attributeString, modeToString, stringToMode]

/-- C14, at the function filter with strict matching and the term `main`:
`save` writes the element `functionfilter`, and `readFunctionFilter` reads it
back as a path filter. -/
theorem C14_function_filter_read_as_path_filter :
    saveFilter ⟨.FunctionFilter, .StrictMatching, "main".toList⟩
      = ⟨"functionfilter".toList, [("matchingmode".toList, "strict".toList)], "main".toList⟩ ∧
    readFilterElement (saveFilter ⟨.FunctionFilter, .StrictMatching, "main".toList⟩)
      = (some ⟨.PathFilter, .StrictMatching, "main".toList⟩, false) := by
  decide

/-! ## Referential integrity -/

/-- C13, at the path `o'brien.cpp`.  On the empty store the call adds a
`trace_point` row whose `path_id` 0 is the key of no `path_name` row, so
referential integrity is lost.  On the store of the end-to-end example no row
named `o'brien.cpp` is created and the new `trace_entry` row references trace
point 1, whose `path_id` is the key of the row named `/a/b.cpp`. -/
theorem C13_quoted_path_breaks_references :
    refIntegrity Database.empty = true ∧
    (storeEntry Database.empty { sampleEntry with path := "o'brien.cpp".toList }).map
      (fun d => (refIntegrity d, d.path_name.rows.map (fun r => r.id),
                 d.trace_point.rows.map (fun r => r.cols.path_id)))
      = some (false, [], [0]) ∧
    refIntegrity sampleStore = true ∧
    (storeEntry sampleStore
        { sampleEntry with path := "o'brien.cpp".toList, message := "world".toList }).map
      (fun d => (d.path_name.rows.map (fun r => (r.id, r.cols)),
                 d.trace_point.rows.map (fun r => (r.id, r.cols.path_id)),
                 d.trace_entry.rows.map (fun r => (r.cols.message, r.cols.tracepoint_id))))
      = some ([(1, "/a/b.cpp".toList)], [(1, 1)],
              [("hello".toList, 1), ("world".toList, 1)]) :=
  ⟨by decide, by decide, by decide, by decide⟩

/-! ## Keys of a table -/

theorem maxId_append {γ : Type} (rows : List (Row γ)) (r : Row γ) :
    maxId (rows ++ [r]) = max (maxId rows) r.id := by
  induction rows with
  | nil => simp [maxId]
  | cons a as ih =>
    show max a.id (maxId (as ++ [r])) = max (max a.id (maxId as)) r.id
    rw [ih]
    omega

theorem maxId_ge {γ : Type} (rows : List (Row γ)) (r : Row γ) (h : r ∈ rows) :
    r.id ≤ maxId rows := by
  induction rows with
  | nil => cases h
  | cons a as ih =>
    simp only [maxId]
    rcases List.mem_cons.mp h with h1 | h1
    · subst h1; omega
    · have := ih h1; omega

theorem id_le_largestKey {γ : Type} (t : Table γ) (r : Row γ) (h : r ∈ t.rows) :
    r.id ≤ t.largestKey := by
  have := maxId_ge t.rows r h
  simp only [Table.largestKey]
  omega

theorem largestKey_insert {γ : Type} (t t1 : Table γ) (c : γ) (h : t.insert c = some t1) :
    t1.largestKey = t.largestKey + 1 := by
  rw [(rows_of_insert t t1 c h).1]
  simp only [Table.largestKey, maxId_append]
  omega

theorem largestKey_of_cases {γ : Type} [DecidableEq γ] (t t1 : Table γ) (c : γ)
    (hnew : t.idsOf c = [] → t.insert c = some t1) (hold : t.idsOf c ≠ [] → t1 = t) :
    t1.largestKey ≤ t.largestKey + 1 := by
  by_cases hc : t.idsOf c = []
  · rw [largestKey_insert _ _ _ (hnew hc)]
  · rw [hold hc]
    omega

theorem hasRoom_of_le {γ : Type} (t : Table γ) (n : Nat) (h : t.largestKey + (n + 1) ≤ maxKey) :
    t.hasRoom = true := by
  simp only [Table.hasRoom, decide_eq_true_eq]
  omega

theorem idsOf_mem {γ : Type} [DecidableEq γ] (t : Table γ) (c : γ) (i : Nat)
    (rest : List Nat) (h : t.idsOf c = i :: rest) :
    ∃ r ∈ t.rows, r.id = i ∧ r.cols = c := by
  have hmem : i ∈ t.idsOf c := by rw [h]; exact List.mem_cons_self _ _
  simp only [Table.idsOf, List.mem_map, List.mem_filter, decide_eq_true_eq] at hmem
  obtain ⟨r, ⟨hr, hc⟩, hid⟩ := hmem
  exact ⟨r, hr, hid, hc⟩

/-! ## Plain entries, one after the other -/

/-- Plain entries stored one after the other each add one `trace_entry` row,
as long as every table has a next key for each of them. -/
theorem storeEntries_plain (es : List TraceEntry) (db : Database)
    (h : ∀ e ∈ es, isPlain e.path = true ∧ isPlain e.function = true ∧
      isPlain e.message = true ∧ isSqlInteger e.pid = true ∧ isSqlInteger e.tid = true ∧
      isSqlInteger e.timestamp = true ∧ isSqlInteger e.verbosity = true ∧
      isSqlInteger e.type = true ∧ isSqlInteger e.lineno = true)
    (rp : db.path_name.largestKey + es.length ≤ maxKey)
    (rf : db.function_name.largestKey + es.length ≤ maxKey)
    (rt : db.trace_point.largestKey + es.length ≤ maxKey)
    (re : db.trace_entry.largestKey + es.length ≤ maxKey) :
    ∃ db1, storeEntries db es = some db1 ∧
      db1.trace_entry.rows.length = db.trace_entry.rows.length + es.length := by
  induction es generalizing db with
  | nil => exact ⟨db, rfl, rfl⟩
  | cons e es ih =>
    simp only [List.length_cons] at rp rf rt re
    obtain ⟨hp, hf, hm, hpid, htid, htime, hverb, htype, hline⟩ := h e (List.mem_cons_self _ _)
    obtain ⟨d1, p, f, tp, hs, g1, _, _, _, g5, g6, g7, g8, g9, g10, _⟩ :=
      storeEntry_plain_tables db e hp hf hm hpid htid htime hverb htype hline
        (hasRoom_of_le _ es.length rp) (hasRoom_of_le _ es.length rf)
        (hasRoom_of_le _ es.length rt) (hasRoom_of_le _ es.length re)
    have l1 := largestKey_of_cases _ _ _ g5 g6
    have l2 := largestKey_of_cases _ _ _ g7 g8
    have l3 := largestKey_of_cases _ _ _ g9 g10
    have l4 := largestKey_insert _ _ _ g1
    obtain ⟨d2, hs2, hlen⟩ := ih d1 (fun x hx => h x (List.mem_cons_of_mem _ hx))
      (by omega) (by omega) (by omega) (by omega)
    refine ⟨d2, ?_, ?_⟩
    · simp only [storeEntries, hs, hs2]
    · have h1 : d1.trace_entry.rows.length = db.trace_entry.rows.length + 1 := by
        rw [(rows_of_insert _ _ _ g1).1, List.length_append, List.length_singleton]
      rw [hlen, h1, List.length_cons]
      omega

/-! ## Trace points are shared -/

/-- Two plain entries that agree on verbosity, type, path, line and function
and are stored one after the other, in a store whose tables have two next
keys: the second call adds no row to `path_name`, `function_name` or
`trace_point`, and the two `trace_entry` rows that are appended have
different keys and the same `tracepoint_id`. -/
theorem storeEntry_twice_plain (db : Database) (e1 e2 : TraceEntry)
    (hp : isPlain e1.path = true) (hf : isPlain e1.function = true)
    (hm1 : isPlain e1.message = true) (hm2 : isPlain e2.message = true)
    (hverb : isSqlInteger e1.verbosity = true) (htype : isSqlInteger e1.type = true)
    (hline : isSqlInteger e1.lineno = true)
    (hpid1 : isSqlInteger e1.pid = true) (htid1 : isSqlInteger e1.tid = true)
    (htime1 : isSqlInteger e1.timestamp = true)
    (hpid2 : isSqlInteger e2.pid = true) (htid2 : isSqlInteger e2.tid = true)
    (htime2 : isSqlInteger e2.timestamp = true)
    (hv : e2.verbosity = e1.verbosity) (ht : e2.type = e1.type) (hpath : e2.path = e1.path)
    (hl : e2.lineno = e1.lineno) (hfn : e2.function = e1.function)
    (rp : db.path_name.largestKey + 2 ≤ maxKey) (rf : db.function_name.largestKey + 2 ≤ maxKey)
    (rt : db.trace_point.largestKey + 2 ≤ maxKey) (re : db.trace_entry.largestKey + 2 ≤ maxKey) :
    ∃ d1 d2 r1 r2, storeEntry db e1 = some d1 ∧ storeEntry d1 e2 = some d2 ∧
      d2.path_name = d1.path_name ∧ d2.function_name = d1.function_name ∧
      d2.trace_point = d1.trace_point ∧
      d2.trace_entry.rows = db.trace_entry.rows ++ [r1, r2] ∧ r1.id ≠ r2.id ∧
      r1.cols.tracepoint_id = r2.cols.tracepoint_id ∧
      r1.cols.message = e1.message ∧ r2.cols.message = e2.message := by
  obtain ⟨d1, p1, f1, tp1, hs1, g1, ⟨jp, rsp, gp, hp1⟩, ⟨jf, rsf, gf, hf1⟩, ⟨jt, rst, gt, ht1⟩,
    g5, g6, g7, g8, g9, g10, _⟩ :=
    storeEntry_plain_tables db e1 hp hf hm1 hpid1 htid1 htime1 hverb htype hline
      (hasRoom_of_le _ 1 rp) (hasRoom_of_le _ 1 rf) (hasRoom_of_le _ 1 rt) (hasRoom_of_le _ 1 re)
  have l1 := largestKey_of_cases _ _ _ g5 g6
  have l2 := largestKey_of_cases _ _ _ g7 g8
  have l3 := largestKey_of_cases _ _ _ g9 g10
  have l4 := largestKey_insert _ _ _ g1
  obtain ⟨d2, p2, f2, tp2, hs2, k1, ⟨jp2, rsp2, kp, hp2⟩, ⟨jf2, rsf2, kf, hf2⟩,
    ⟨jt2, rst2, kt, ht2⟩, _, k6, _, k8, _, k10, _⟩ :=
    storeEntry_plain_tables d1 e2 (by rw [hpath]; exact hp) (by rw [hfn]; exact hf) hm2 hpid2
      htid2 htime2 (by rw [hv]; exact hverb) (by rw [ht]; exact htype) (by rw [hl]; exact hline)
      (hasRoom_of_le _ 0 (by omega)) (hasRoom_of_le _ 0 (by omega))
      (hasRoom_of_le _ 0 (by omega)) (hasRoom_of_le _ 0 (by omega))
  rw [hpath] at kp k6
  rw [hfn] at kf k8
  rw [hv, ht, hl] at kt k10
  have e1p : d2.path_name = d1.path_name := k6 (by rw [gp]; simp)
  have e1f : d2.function_name = d1.function_name := k8 (by rw [gf]; simp)
  have hpp : p2 = p1 := by
    rw [e1p, gp] at kp
    injection kp with kp1 _
    rw [hp2, hp1, kp1]
  have hff : f2 = f1 := by
    rw [e1f, gf] at kf
    injection kf with kf1 _
    rw [hf2, hf1, kf1]
  rw [hpp, hff] at kt k10
  have e1t : d2.trace_point = d1.trace_point := k10 (by rw [gt]; simp)
  have htt : tp2 = tp1 := by
    rw [e1t, gt] at kt
    injection kt with kt1 _
    rw [ht2, ht1, kt1]
  refine ⟨d1, d2, ⟨db.trace_entry.largestKey + 1, ⟨e1.pid, e1.tid, e1.timestamp, tp1, e1.message⟩⟩,
    ⟨d1.trace_entry.largestKey + 1, ⟨e2.pid, e2.tid, e2.timestamp, tp2, e2.message⟩⟩,
    hs1, hs2, e1p, e1f, e1t, ?_, ?_, ?_, rfl, rfl⟩
  · rw [(rows_of_insert _ _ _ k1).1, (rows_of_insert _ _ _ g1).1]
    simp
  · show db.trace_entry.largestKey + 1 ≠ d1.trace_entry.largestKey + 1
    omega
  · show tp1 = tp2
    rw [htt]

/-! ## The same new path, stored twice in a row -/

/-- Two plain entries with the same path, which `path_name` does not hold
yet, stored one after the other, in a store whose tables have two next keys:
`path_name` then holds exactly one row with that name, under the key that
was the next one, and the block on `path_name` reads that key in both
calls. -/
theorem storeEntry_same_new_path_in_sequence (db : Database) (e1 e2 : TraceEntry)
    (hp : isPlain e1.path = true) (hf1 : isPlain e1.function = true)
    (hm1 : isPlain e1.message = true) (hf2 : isPlain e2.function = true)
    (hm2 : isPlain e2.message = true)
    (hverb1 : isSqlInteger e1.verbosity = true) (htype1 : isSqlInteger e1.type = true)
    (hline1 : isSqlInteger e1.lineno = true) (hpid1 : isSqlInteger e1.pid = true)
    (htid1 : isSqlInteger e1.tid = true) (htime1 : isSqlInteger e1.timestamp = true)
    (hverb2 : isSqlInteger e2.verbosity = true) (htype2 : isSqlInteger e2.type = true)
    (hline2 : isSqlInteger e2.lineno = true) (hpid2 : isSqlInteger e2.pid = true)
    (htid2 : isSqlInteger e2.tid = true) (htime2 : isSqlInteger e2.timestamp = true)
    (hsame : e2.path = e1.path) (hnew : db.path_name.idsOf e1.path = [])
    (rp : db.path_name.largestKey + 2 ≤ maxKey) (rf : db.function_name.largestKey + 2 ≤ maxKey)
    (rt : db.trace_point.largestKey + 2 ≤ maxKey) (re : db.trace_entry.largestKey + 2 ≤ maxKey) :
    ∃ d1 d2 a1 a2, storeEntry db e1 = some d1 ∧ storeEntry d1 e2 = some d2 ∧
      d2.path_name.idsOf e1.path = [db.path_name.largestKey + 1] ∧
      resolveNameId (execBegin db) .path_name e1.path
        = some (a1, (db.path_name.largestKey + 1) % 2 ^ 32) ∧
      resolveNameId (execBegin d1) .path_name e2.path
        = some (a2, (db.path_name.largestKey + 1) % 2 ^ 32) := by
  obtain ⟨d1, p1, f1, tp1, hs1, g1, _, _, _, g5, g6, g7, g8, g9, g10, _⟩ :=
    storeEntry_plain_tables db e1 hp hf1 hm1 hpid1 htid1 htime1 hverb1 htype1 hline1
      (hasRoom_of_le _ 1 rp) (hasRoom_of_le _ 1 rf) (hasRoom_of_le _ 1 rt) (hasRoom_of_le _ 1 re)
  have l1 := largestKey_of_cases _ _ _ g5 g6
  have l2 := largestKey_of_cases _ _ _ g7 g8
  have l3 := largestKey_of_cases _ _ _ g9 g10
  have l4 := largestKey_insert _ _ _ g1
  have hp2 : isPlain e2.path = true := by rw [hsame]; exact hp
  obtain ⟨d2, p2, f2, tp2, hs2, _, _, _, _, _, k6, _⟩ :=
    storeEntry_plain_tables d1 e2 hp2 hf2 hm2 hpid2 htid2 htime2 hverb2 htype2 hline2
      (hasRoom_of_le _ 0 (by omega)) (hasRoom_of_le _ 0 (by omega))
      (hasRoom_of_le _ 0 (by omega)) (hasRoom_of_le _ 0 (by omega))
  have hd1 : d1.path_name.idsOf e1.path = [db.path_name.largestKey + 1] := by
    rw [(rows_of_insert _ _ _ (g5 hnew)).1]
    exact idsOf_append_self _ _ _ _ hnew
  have hd2 : d2.path_name = d1.path_name := by
    apply k6
    rw [hsame, hd1]
    simp
  obtain ⟨b1, _⟩ := execBegin_tables db
  obtain ⟨c1, _⟩ := execBegin_tables d1
  have hfirst : ∃ a1, resolveNameId (execBegin db) .path_name e1.path
      = some (a1, (db.path_name.largestKey + 1) % 2 ^ 32) := by
    have := resolveNameId_new (execBegin db) .path_name e1.path hp
      (by simp only [Database.names]; rw [b1]; exact hnew)
      (by simp only [Database.names]; rw [b1]; exact hasRoom_of_le _ 1 rp)
    simp only [Database.names] at this
    rw [b1] at this
    exact ⟨_, this⟩
  obtain ⟨a1, ha1⟩ := hfirst
  refine ⟨d1, d2, a1, execBegin d1, hs1, hs2, ?_, ha1, ?_⟩
  · rw [hd2]; exact hd1
  · rw [hsame]
    exact resolveNameId_found (execBegin d1) .path_name e1.path _ [] hp
      (by simp only [Database.names]; rw [c1]; exact hd1)

/-! ## References stay intact on plain entries -/

theorem refIntegrity_iff (db : Database) :
    refIntegrity db = true ↔
      (∀ r ∈ db.trace_entry.rows, ∃ tp ∈ db.trace_point.rows, tp.id = r.cols.tracepoint_id) ∧
      (∀ tp ∈ db.trace_point.rows,
        (∃ p ∈ db.path_name.rows, p.id = tp.cols.path_id) ∧
        (∃ f ∈ db.function_name.rows, f.id = tp.cols.function_id)) := by
  simp only [refIntegrity, Bool.and_eq_true, List.all_eq_true, List.any_eq_true,
    decide_eq_true_eq]

theorem mem_rows_of_cases {γ : Type} [DecidableEq γ] (t t1 : Table γ) (c : γ)
    (hnew : t.idsOf c = [] → t.insert c = some t1) (hold : t.idsOf c ≠ [] → t1 = t) :
    (∀ r ∈ t.rows, r ∈ t1.rows) ∧ (∀ r ∈ t1.rows, r ∈ t.rows ∨ r.cols = c) := by
  by_cases hc : t.idsOf c = []
  · rw [(rows_of_insert _ _ _ (hnew hc)).1]
    refine ⟨fun r hr => List.mem_append_left _ hr, fun r hr => ?_⟩
    rcases List.mem_append.mp hr with h | h
    · exact Or.inl h
    · rw [List.mem_singleton] at h
      subst h
      exact Or.inr rfl
  · rw [hold hc]
    exact ⟨fun _ hr => hr, fun _ hr => Or.inl hr⟩

/-- On a store whose keys fit `unsigned int`, a plain entry keeps referential
integrity, and the `trace_entry` row it appends references a trace point with
the entry's verbosity, type and line whose `path_id` and `function_id` are the
keys of rows named `e.path` and `e.function`. -/
theorem storeEntry_plain_refIntegrity (db : Database) (e : TraceEntry)
    (hp : isPlain e.path = true) (hf : isPlain e.function = true)
    (hm : isPlain e.message = true)
    (hpid : isSqlInteger e.pid = true) (htid : isSqlInteger e.tid = true)
    (htime : isSqlInteger e.timestamp = true) (hverb : isSqlInteger e.verbosity = true)
    (htype : isSqlInteger e.type = true) (hline : isSqlInteger e.lineno = true)
    (hint : refIntegrity db = true)
    (hfp : db.path_name.largestKey + 1 < 2 ^ 32) (hff : db.function_name.largestKey + 1 < 2 ^ 32)
    (hft : db.trace_point.largestKey + 1 < 2 ^ 32) (re : db.trace_entry.hasRoom = true) :
    ∃ db1 r tp p f, storeEntry db e = some db1 ∧ refIntegrity db1 = true ∧
      db1.trace_entry.rows = db.trace_entry.rows ++ [r] ∧ r.cols.message = e.message ∧
      tp ∈ db1.trace_point.rows ∧ tp.id = r.cols.tracepoint_id ∧
      tp.cols.verbosity = e.verbosity ∧ tp.cols.type = e.type ∧ tp.cols.line = e.lineno ∧
      p ∈ db1.path_name.rows ∧ p.cols = e.path ∧ p.id = tp.cols.path_id ∧
      f ∈ db1.function_name.rows ∧ f.cols = e.function ∧ f.id = tp.cols.function_id := by
  have hmk : (2 : Nat) ^ 32 ≤ maxKey := by decide
  obtain ⟨db1, pi, fi, ti, hs, g1, ⟨jp, rsp, gp, hpi⟩, ⟨jf, rsf, gf, hfi⟩, ⟨jt, rst, gt, hti⟩,
    g5, g6, g7, g8, g9, g10, _⟩ :=
    storeEntry_plain_tables db e hp hf hm hpid htid htime hverb htype hline
      (hasRoom_of_le _ 0 (by omega)) (hasRoom_of_le _ 0 (by omega))
      (hasRoom_of_le _ 0 (by omega)) re
  have l1 := largestKey_of_cases _ _ _ g5 g6
  have l2 := largestKey_of_cases _ _ _ g7 g8
  have l3 := largestKey_of_cases _ _ _ g9 g10
  obtain ⟨rp, hrp, hrpid, hrpc⟩ := idsOf_mem _ _ _ _ gp
  obtain ⟨rf, hrf, hrfid, hrfc⟩ := idsOf_mem _ _ _ _ gf
  obtain ⟨rt, hrt, hrtid, hrtc⟩ := idsOf_mem _ _ _ _ gt
  have bp := id_le_largestKey _ _ hrp
  have bf := id_le_largestKey _ _ hrf
  have bt := id_le_largestKey _ _ hrt
  have epi : pi = rp.id := by
    rw [hpi, ← hrpid]
    exact Nat.mod_eq_of_lt (by omega)
  have efi : fi = rf.id := by
    rw [hfi, ← hrfid]
    exact Nat.mod_eq_of_lt (by omega)
  have eti : ti = rt.id := by
    rw [hti, ← hrtid]
    exact Nat.mod_eq_of_lt (by omega)
  obtain ⟨mp1, _⟩ := mem_rows_of_cases _ _ _ g5 g6
  obtain ⟨mf1, _⟩ := mem_rows_of_cases _ _ _ g7 g8
  obtain ⟨mt1, mt2⟩ := mem_rows_of_cases _ _ _ g9 g10
  obtain ⟨hi1, hi2⟩ := (refIntegrity_iff db).mp hint
  have hrows := (rows_of_insert _ _ _ g1).1
  refine ⟨db1, ⟨db.trace_entry.largestKey + 1, ⟨e.pid, e.tid, e.timestamp, ti, e.message⟩⟩, rt, rp,
    rf, hs, ?_, by rw [hrows], rfl, hrt, eti.symm, by rw [hrtc], by rw [hrtc], by rw [hrtc], hrp,
    hrpc, by rw [hrtc]; exact epi.symm, hrf, hrfc, by rw [hrtc]; exact efi.symm⟩
  rw [refIntegrity_iff]
  constructor
  · intro r hr
    rw [hrows] at hr
    rcases List.mem_append.mp hr with h | h
    · obtain ⟨tp, htp, htpid⟩ := hi1 r h
      exact ⟨tp, mt1 tp htp, htpid⟩
    · rw [List.mem_singleton] at h
      subst h
      exact ⟨rt, hrt, eti.symm⟩
  · intro tp htp
    rcases mt2 tp htp with h | h
    · obtain ⟨⟨p, hp1, hp2⟩, ⟨f, hf1, hf2⟩⟩ := hi2 tp h
      exact ⟨⟨p, mp1 p hp1, hp2⟩, ⟨f, mf1 f hf1, hf2⟩⟩
    · rw [h]
      exact ⟨⟨rp, hrp, epi.symm⟩, ⟨rf, hrf, efi.symm⟩⟩

end TraceTool
